import Mathlib

/-!
Verification of the NovaPDF screenshot-harness orchestration engine
(`tools/capture_screenshots.py` and `tools/testpoints.py`) against its
natural-language specification.

Modelling conventions:
* Python strings are modelled as `List Char`; `pyStr` converts a Lean string
  literal into that representation.
* Python's implicit whitespace set (`str.strip`, `str.isspace`) is modelled by
  `pyIsSpace`, covering the full set of code points CPython treats as
  whitespace; `str.isalnum` is modelled by `pyIsAlnum` on its ASCII fragment
  (the inputs handled by the harness are ASCII identifiers and paths).
* Calls into the device (adb), the JSON decoder, and the Gradle installer are
  modelled as explicit oracle parameters; a `none`/`false` result models the
  corresponding subprocess failure.
* Code that can raise an uncaught Python exception is modelled with an
  explicit result type instead of exceptions.
-/

namespace NovaPDF

/-- Convert a Lean string literal to the `List Char` model of Python strings. -/
def pyStr (s : String) : List Char := s.toList

/-- Whitespace as recognised by CPython's `str.strip()` / `str.isspace()`. -/
def pyIsSpace (c : Char) : Bool :=
  (9 ≤ c.toNat && c.toNat ≤ 13) || (28 ≤ c.toNat && c.toNat ≤ 32) ||
  c.toNat = 133 || c.toNat = 160 || c.toNat = 5760 ||
  (8192 ≤ c.toNat && c.toNat ≤ 8202) || c.toNat = 8232 || c.toNat = 8233 ||
  c.toNat = 8239 || c.toNat = 8287 || c.toNat = 12288

/-- ASCII fragment of CPython's `str.isalnum()`. -/
def pyIsAlnum (c : Char) : Bool :=
  (48 ≤ c.toNat && c.toNat ≤ 57) || (65 ≤ c.toNat && c.toNat ≤ 90) ||
  (97 ≤ c.toNat && c.toNat ≤ 122)

/-- Strip characters satisfying `p` from both ends of a string
(Python `str.strip` with an explicit character class). -/
def pyStripSet (p : Char → Bool) (s : List Char) : List Char :=
  ((s.dropWhile p).reverse.dropWhile p).reverse

/-- Python `str.strip()` (no arguments): strip whitespace from both ends. -/
def pyStrip (s : List Char) : List Char := pyStripSet pyIsSpace s

/-- The `SAFE_PUNCTUATION` set `{".", "-", "_"}` of `capture_screenshots.py`. -/
def isSafePunct (c : Char) : Bool := c = '.' || c = '-' || c = '_'

/-- Per-character mapping performed by `_sanitize`: keep alphanumerics and safe
punctuation, map whitespace and every other character to an underscore. -/
def sanitizeMapChar (c : Char) : Char :=
  if pyIsAlnum c || isSafePunct c then c else '_'

/-- Replace each maximal run of the character `t` by a single `t`
(the effect of `re.sub` with the `MULTIPLE_UNDERSCORES` / `MULTIPLE_PERIODS`
patterns). A character equal to `t` is dropped when it is followed by `t`. -/
def collapseRuns (t : Char) : List Char → List Char
  | [] => []
  | c :: rest =>
    match rest with
    | [] => [c]
    | d :: _ =>
      if c = t ∧ d = t then collapseRuns t rest else c :: collapseRuns t rest

/-- Characters stripped from both ends at the end of `_sanitize`
(Python `strip("_.")`). -/
def isUnderscoreOrDot (c : Char) : Bool := c = '_' || c = '.'

/-- `_sanitize` from `capture_screenshots.py`: map characters, collapse
underscore runs, collapse period runs, then strip `_` and `.` from both ends.
An empty input is returned unchanged. -/
def _sanitize (value : List Char) : List Char :=
  if value = [] then []
  else
    pyStripSet isUnderscoreOrDot
      (collapseRuns '.' (collapseRuns '_' (value.map sanitizeMapChar)))

/-- `sanitize_cache_name` from `capture_screenshots.py`: sanitize the stripped
value; if that is empty try the (truthy) fallback; finally fall back to the
literal `"document"`. -/
def sanitize_cache_name (value : List Char) (fallback : Option (List Char)) :
    List Char :=
  let candidate := pyStrip value
  let sanitized := _sanitize candidate
  if sanitized ≠ [] then sanitized
  else
    match fallback with
    | some f =>
      if f ≠ [] then
        let fs := _sanitize (pyStrip f)
        if fs ≠ [] then fs else pyStr "document"
      else pyStr "document"
    | none => pyStr "document"

example : sanitize_cache_name (pyStr "Doc 1") none = pyStr "Doc_1" := by decide
example : sanitize_cache_name (pyStr "???") none = pyStr "document" := by decide
example : sanitize_cache_name (pyStr "  a__b..c  ") none = pyStr "a_b.c" := by
  decide
example : _sanitize (pyStr "_a_") = pyStr "a" := by decide

/-- Characters that `_sanitize` keeps unchanged. -/
def keepChar (c : Char) : Bool := pyIsAlnum c || isSafePunct c

/-- A string has no two adjacent occurrences of the character `t`. -/
def NoRun (t : Char) (s : List Char) : Prop :=
  List.Chain' (fun a b => ¬(a = t ∧ b = t)) s

/-- Normal form of `_sanitize` outputs: only kept characters, no underscore or
period runs, and no leading or trailing underscore or period. -/
structure SanitizedStr (s : List Char) : Prop where
  chars : ∀ c ∈ s, keepChar c = true
  noUnd : NoRun '_' s
  noDot : NoRun '.' s
  headOk : ∀ c, s.head? = some c → isUnderscoreOrDot c = false
  lastOk : ∀ c, s.getLast? = some c → isUnderscoreOrDot c = false

theorem keepChar_sanitizeMapChar (c : Char) :
    keepChar (sanitizeMapChar c) = true := by
  unfold sanitizeMapChar
  by_cases h : (pyIsAlnum c || isSafePunct c) = true
  · simp [h, keepChar]
  · simp [h]
    decide

theorem keepChar_not_space {c : Char} (h : keepChar c = true) :
    pyIsSpace c = false := by
  have hval : (48 ≤ c.toNat ∧ c.toNat ≤ 57) ∨ (65 ≤ c.toNat ∧ c.toNat ≤ 90) ∨
      (97 ≤ c.toNat ∧ c.toNat ≤ 122) ∨ c.toNat = 46 ∨ c.toNat = 45 ∨
      c.toNat = 95 := by
    unfold keepChar pyIsAlnum isSafePunct at h
    simp only [Bool.or_eq_true, Bool.and_eq_true, decide_eq_true_eq] at h
    rcases h with ((h | h) | h) | ((h | h) | h)
    · omega
    · omega
    · omega
    · subst h; decide
    · subst h; decide
    · subst h; decide
  rw [← Bool.not_eq_true]
  intro hsp
  simp only [pyIsSpace, Bool.or_eq_true, Bool.and_eq_true, decide_eq_true_eq] at hsp
  omega

theorem collapseRuns_cons_head (t d : Char) (rest : List Char) :
    ∃ tl, collapseRuns t (d :: rest) = d :: tl := by
  induction rest generalizing d with
  | nil => exact ⟨[], rfl⟩
  | cons e rest ih =>
    by_cases h : d = t ∧ e = t
    · obtain ⟨tl, htl⟩ := ih e
      refine ⟨tl, ?_⟩
      have step : collapseRuns t (d :: e :: rest) = collapseRuns t (e :: rest) := by
        simp [collapseRuns, h]
      rw [step, htl, h.1, h.2]
    · exact ⟨collapseRuns t (e :: rest), by simp [collapseRuns, h]⟩

theorem collapseRuns_sublist (t : Char) (s : List Char) :
    List.Sublist (collapseRuns t s) s := by
  induction s with
  | nil => simp [collapseRuns]
  | cons c rest ih =>
    cases rest with
    | nil => simp [collapseRuns]
    | cons d rest' =>
      by_cases h : c = t ∧ d = t
      · have step : collapseRuns t (c :: d :: rest') = collapseRuns t (d :: rest') := by
          simp [collapseRuns, h]
        rw [step]
        exact ih.cons c
      · have step :
            collapseRuns t (c :: d :: rest') = c :: collapseRuns t (d :: rest') := by
          simp [collapseRuns, h]
        rw [step]
        exact ih.cons₂ c

theorem noRun_collapseRuns (t : Char) (s : List Char) :
    NoRun t (collapseRuns t s) := by
  induction s with
  | nil => simp [collapseRuns, NoRun]
  | cons c rest ih =>
    cases rest with
    | nil => simp [collapseRuns, NoRun]
    | cons d rest' =>
      by_cases h : c = t ∧ d = t
      · have step : collapseRuns t (c :: d :: rest') = collapseRuns t (d :: rest') := by
          simp [collapseRuns, h]
        rw [step]; exact ih
      · have step :
            collapseRuns t (c :: d :: rest') = c :: collapseRuns t (d :: rest') := by
          simp [collapseRuns, h]
        rw [step]
        obtain ⟨tl, htl⟩ := collapseRuns_cons_head t d rest'
        refine List.Chain'.cons' ih ?_
        intro y hy
        rw [htl] at hy
        simp only [List.head?_cons, Option.mem_def, Option.some.injEq] at hy
        subst hy
        exact fun hcd => h ⟨hcd.1, hcd.2⟩

theorem noRun_collapseRuns_other (t u : Char) (s : List Char)
    (hs : NoRun u s) : NoRun u (collapseRuns t s) := by
  induction s with
  | nil => simpa [collapseRuns] using hs
  | cons c rest ih =>
    cases rest with
    | nil => simpa [collapseRuns] using hs
    | cons d rest' =>
      by_cases h : c = t ∧ d = t
      · have step : collapseRuns t (c :: d :: rest') = collapseRuns t (d :: rest') := by
          simp [collapseRuns, h]
        rw [step]
        exact ih hs.tail
      · have step :
            collapseRuns t (c :: d :: rest') = c :: collapseRuns t (d :: rest') := by
          simp [collapseRuns, h]
        rw [step]
        obtain ⟨tl, htl⟩ := collapseRuns_cons_head t d rest'
        refine List.Chain'.cons' (ih hs.tail) ?_
        intro y hy
        rw [htl] at hy
        simp only [List.head?_cons, Option.mem_def, Option.some.injEq] at hy
        subst hy
        exact hs.rel_head

theorem collapseRuns_eq_self (t : Char) (s : List Char)
    (hs : NoRun t s) : collapseRuns t s = s := by
  induction s with
  | nil => rfl
  | cons c rest ih =>
    cases rest with
    | nil => rfl
    | cons d rest' =>
      have h : ¬(c = t ∧ d = t) := hs.rel_head
      have step :
          collapseRuns t (c :: d :: rest') = c :: collapseRuns t (d :: rest') := by
        simp [collapseRuns, h]
      rw [step, ih hs.tail]

theorem pyStripSet_eq_rdropWhile (p : Char → Bool) (s : List Char) :
    pyStripSet p s = List.rdropWhile p (s.dropWhile p) := rfl

theorem pyStripSet_infix (p : Char → Bool) (s : List Char) :
    List.IsInfix (pyStripSet p s) s := by
  rw [pyStripSet_eq_rdropWhile]
  obtain ⟨t, ht⟩ := List.rdropWhile_prefix p (s.dropWhile p)
  obtain ⟨u, hu⟩ := List.dropWhile_suffix (l := s) p
  exact ⟨u, t, by rw [List.append_assoc, ht, hu]⟩

theorem pyStripSet_eq_self (p : Char → Bool) (s : List Char)
    (hh : ∀ c, s.head? = some c → p c = false)
    (hl : ∀ c, s.getLast? = some c → p c = false) :
    pyStripSet p s = s := by
  cases s with
  | nil => rfl
  | cons a t =>
    rw [pyStripSet_eq_rdropWhile]
    have h1 : (a :: t).dropWhile p = a :: t := by
      have := hh a rfl
      simp [List.dropWhile, this]
    rw [h1]
    rw [List.rdropWhile_eq_self_iff]
    intro hne
    have := hl ((a :: t).getLast hne) (List.getLast?_eq_getLast_of_ne_nil hne)
    simp [this]

theorem pyStripSet_head (p : Char → Bool) (s : List Char) :
    ∀ c, (pyStripSet p s).head? = some c → p c = false := by
  intro c hc
  rw [pyStripSet_eq_rdropWhile] at hc
  obtain ⟨tl, htl⟩ := List.rdropWhile_prefix p (s.dropWhile p)
  have hh : (s.dropWhile p).head? = some c := by
    rw [← htl]
    rcases hx : List.rdropWhile p (s.dropWhile p) with _ | ⟨x, xs⟩
    · rw [hx] at hc; simp at hc
    · rw [hx] at hc
      simp only [List.head?_cons, Option.some.injEq] at hc
      subst hc
      simp
  have hmatch := List.head?_dropWhile_not p s
  rw [hh] at hmatch
  exact hmatch

theorem pyStripSet_last (p : Char → Bool) (s : List Char) :
    ∀ c, (pyStripSet p s).getLast? = some c → p c = false := by
  intro c hc
  rw [pyStripSet_eq_rdropWhile] at hc
  have hne : List.rdropWhile p (s.dropWhile p) ≠ [] := by
    intro h; rw [h] at hc; simp at hc
  have hlast := List.rdropWhile_last_not p (s.dropWhile p) hne
  obtain ⟨h', heq⟩ := List.mem_getLast?_eq_getLast (Option.mem_def.mpr hc)
  rw [← heq] at hlast
  simpa using hlast

theorem sanitizedStr_sanitize (v : List Char) : SanitizedStr (_sanitize v) := by
  unfold _sanitize
  by_cases hv : v = []
  · subst hv
    simp only [if_pos rfl]
    exact ⟨by simp, by simp [NoRun], by simp [NoRun], by simp, by simp⟩
  · rw [if_neg hv]
    set m := v.map sanitizeMapChar with hm
    set c1 := collapseRuns '_' m with hc1
    set c2 := collapseRuns '.' c1 with hc2
    have charsM : ∀ c ∈ m, keepChar c = true := by
      intro c hc
      rw [hm] at hc
      obtain ⟨x, _, rfl⟩ := List.mem_map.mp hc
      exact keepChar_sanitizeMapChar x
    have charsC2 : ∀ c ∈ c2, keepChar c = true := fun c hc =>
      charsM c ((collapseRuns_sublist '_' m).subset
        ((collapseRuns_sublist '.' c1).subset hc))
    have noU : NoRun '_' c2 :=
      noRun_collapseRuns_other '.' '_' c1 (noRun_collapseRuns '_' m)
    have noD : NoRun '.' c2 := noRun_collapseRuns '.' c1
    have hinf := pyStripSet_infix isUnderscoreOrDot c2
    refine ⟨?_, ?_, ?_, ?_, ?_⟩
    · exact fun c hc => charsC2 c (hinf.sublist.subset hc)
    · exact List.Chain'.infix noU hinf
    · exact List.Chain'.infix noD hinf
    · exact pyStripSet_head _ _
    · exact pyStripSet_last _ _

theorem sanitize_fixed {s : List Char} (hs : SanitizedStr s) :
    _sanitize s = s := by
  unfold _sanitize
  by_cases h : s = []
  · simp [h]
  · rw [if_neg h]
    have hmap : s.map sanitizeMapChar = s := by
      rw [List.map_congr_left (fun c hc => ?_), List.map_id]
      have := hs.chars c hc
      unfold keepChar at this
      simp [sanitizeMapChar, this]
    rw [hmap, collapseRuns_eq_self _ _ hs.noUnd, collapseRuns_eq_self _ _ hs.noDot]
    exact pyStripSet_eq_self _ _ hs.headOk hs.lastOk

theorem pyStrip_fixed {s : List Char} (hs : ∀ c ∈ s, pyIsSpace c = false) :
    pyStrip s = s := by
  unfold pyStrip
  refine pyStripSet_eq_self _ _ ?_ ?_
  · intro c hc
    exact hs c (List.mem_of_mem_head? hc)
  · intro c hc
    obtain ⟨h', heq⟩ := List.mem_getLast?_eq_getLast hc
    exact hs c (by rw [heq]; exact List.getLast_mem h')

theorem sanitize_cache_name_none_eq (v : List Char) :
    sanitize_cache_name v none =
      if _sanitize (pyStrip v) = [] then pyStr "document"
      else _sanitize (pyStrip v) := by
  unfold sanitize_cache_name
  by_cases h : _sanitize (pyStrip v) = [] <;> simp [h]

/-- C8: `sanitize_cache_name` is idempotent, and empty or entirely-illegal
input (sanitization of the stripped value yields the empty string) with no
fallback produces the literal `"document"`. -/
theorem sanitize_cache_name_idempotent_and_fallback :
    (∀ v : List Char,
      sanitize_cache_name (sanitize_cache_name v none) none =
        sanitize_cache_name v none) ∧
    (∀ v : List Char, _sanitize (pyStrip v) = [] →
      sanitize_cache_name v none = pyStr "document") := by
  constructor
  · intro v
    by_cases h : _sanitize (pyStrip v) = []
    · rw [sanitize_cache_name_none_eq v, if_pos h]
      decide
    · rw [sanitize_cache_name_none_eq v, if_neg h]
      have hsan := sanitizedStr_sanitize (pyStrip v)
      have hstrip : pyStrip (_sanitize (pyStrip v)) = _sanitize (pyStrip v) :=
        pyStrip_fixed (fun c hc => keepChar_not_space (hsan.chars c hc))
      rw [sanitize_cache_name_none_eq, hstrip, sanitize_fixed hsan, if_neg h]
  · intro v h
    rw [sanitize_cache_name_none_eq v, if_pos h]

/-- Witness for C8 at concrete inputs. -/
theorem sanitize_cache_name_idempotent_and_fallback_witness :
    sanitize_cache_name (sanitize_cache_name (pyStr "Doc 1!") none) none =
      sanitize_cache_name (pyStr "Doc 1!") none ∧
    sanitize_cache_name (pyStr "???") none = pyStr "document" :=
  ⟨sanitize_cache_name_idempotent_and_fallback.1 (pyStr "Doc 1!"),
   sanitize_cache_name_idempotent_and_fallback.2 (pyStr "???") (by decide)⟩

/-! ### JSON values and the phase-event parser (`parse_phase_event`) -/

/-- Values produced by Python's `json.loads`.  A non-integral number is
`float z r` where `z` records whether the value equals `0.0` (its Python
truthiness) and `r` is its `str()` rendering. -/
inductive Json where
  | null : Json
  | bool (b : Bool) : Json
  | int (n : Int) : Json
  | float (zero : Bool) (render : List Char) : Json
  | str (s : List Char) : Json
  | arr (elems : List Json) : Json
  | obj (kvs : List (List Char × Json)) : Json

/-- First binding for a key in a JSON object (objects produced by
`json.loads` have unique keys). -/
def jsonLookup (kvs : List (List Char × Json)) (k : List Char) : Option Json :=
  match kvs.find? (fun kv => kv.1 == k) with
  | some kv => some kv.2
  | none => none

/-- Python `dict.get(k)` with default `None`: a JSON `null` value is the
Python value `None`, indistinguishable from the missing-key default. -/
def pyDictGet (kvs : List (List Char × Json)) (k : List Char) : Option Json :=
  match jsonLookup kvs k with
  | some Json.null => none
  | v => v

/-- Rendering of `str(value)` for the scalar values accepted by the context
coercion (`str`, `int`, `float`, `bool`); `none` for non-scalars. -/
def pyStrOfScalar : Json → Option (List Char)
  | .str s => some s
  | .bool true => some (pyStr "True")
  | .bool false => some (pyStr "False")
  | .int n => some (toString n).toList
  | .float _ r => some r
  | _ => none

/-- Digit tail of a Python integer literal: decimal digits with single
underscores allowed between digits. -/
def pyDigitsCore : List Char → Nat → Option Nat
  | [], acc => some acc
  | '_' :: d :: rest, acc =>
    if d.isDigit then pyDigitsCore rest (acc * 10 + (d.toNat - 48)) else none
  | ['_'], _ => none
  | c :: rest, acc =>
    if c.isDigit then pyDigitsCore rest (acc * 10 + (c.toNat - 48)) else none
termination_by s _ => s.length

/-- Unsigned decimal literal: at least one digit, then `pyDigitsCore`. -/
def pyUnsignedToNat : List Char → Option Nat
  | [] => none
  | c :: rest =>
    if c.isDigit then pyDigitsCore rest (c.toNat - 48) else none

/-- Python `int(s)` on a decimal string: strip whitespace, optional sign,
digits with grouping underscores; `none` models `ValueError`. -/
def pyStrToInt (s : List Char) : Option Int :=
  match pyStrip s with
  | '+' :: rest => (pyUnsignedToNat rest).map Int.ofNat
  | '-' :: rest => (pyUnsignedToNat rest).map (fun n => -(Int.ofNat n : Int))
  | t => (pyUnsignedToNat t).map Int.ofNat

/-- `_coerce_int` from `capture_screenshots.py`.  `isinstance(value, int)`
accepts Python `bool` (a subclass of `int`), so JSON `true`/`false` coerce to
`1`/`0`; strings go through `int(s)`; everything else is `None`. -/
def _coerce_int : Option Json → Option Int
  | some (.bool b) => some (if b then 1 else 0)
  | some (.int n) => some n
  | some (.str s) => pyStrToInt s
  | _ => none

/-- The `HARNESS PHASE: ` line marker (`HARNESS_PHASE_PREFIX` in the
source). -/
def harnessPhaseMarker : List Char := pyStr "HARNESS PHASE: "

/-- `HarnessPhaseEvent` from `capture_screenshots.py`.  The unvalidated
fields (`checkpoint`, `detail`, `error_type`, `error_message`) hold whatever
JSON value the payload carried (`none` for a missing key or JSON `null`). -/
structure HarnessPhaseEvent where
  type : List Char
  component : List Char
  operation : List Char
  attempt : Int
  timestamp_ms : Option Int
  context : List (List Char × List Char)
  checkpoint : Option Json
  detail : Option Json
  next_attempt : Option Int
  error_type : Option Json
  error_message : Option Json

/-- Python exceptions that the modelled code can raise. -/
inductive PyExn where
  | attributeError : PyExn
deriving DecidableEq

/-- Result of running Python code that may raise. -/
inductive PyResult (α : Type) where
  | ok (a : α) : PyResult α
  | exn (e : PyExn) : PyResult α

/-- The `data.get("context") or {}` coercion: iterate a dict value and keep
string-coerced scalar entries; any non-dict (or falsy) value contributes
nothing. -/
def coerceContext : Option Json → List (List Char × List Char)
  | some (.obj kvs) =>
    kvs.filterMap (fun kv => (pyStrOfScalar kv.2).map (fun v => (kv.1, v)))
  | _ => []

/-- A required field check of `parse_phase_event`: the value must be a
non-empty JSON string. -/
def nonEmptyStr : Option Json → Option (List Char)
  | some (.str s) => if s = [] then none else some s
  | _ => none

/-- Equality test `data.get("event") != "harness_phase"`: only the identical
string compares equal. -/
def jsonEqStr (v : Option Json) (s : List Char) : Bool :=
  match v with
  | some (.str t) => t == s
  | _ => false

/-- Body of `parse_phase_event` once the payload has been `json.loads`-ed.
`data.get(...)` on a non-`dict` value raises `AttributeError`. -/
def parse_phase_payload : Json → PyResult (Option HarnessPhaseEvent)
  | Json.obj kvs =>
    if jsonEqStr (pyDictGet kvs (pyStr "event")) (pyStr "harness_phase") = false
    then .ok none
    else
      match nonEmptyStr (pyDictGet kvs (pyStr "type")) with
      | none => .ok none
      | some ty =>
        match nonEmptyStr (pyDictGet kvs (pyStr "component")) with
        | none => .ok none
        | some comp =>
          match nonEmptyStr (pyDictGet kvs (pyStr "operation")) with
          | none => .ok none
          | some op =>
            match _coerce_int (pyDictGet kvs (pyStr "attempt")) with
            | none => .ok none
            | some attempt =>
              .ok (some
                { type := ty
                  component := comp
                  operation := op
                  attempt := attempt
                  timestamp_ms := _coerce_int (pyDictGet kvs (pyStr "timestampMs"))
                  context := coerceContext (pyDictGet kvs (pyStr "context"))
                  checkpoint := pyDictGet kvs (pyStr "checkpoint")
                  detail := pyDictGet kvs (pyStr "detail")
                  next_attempt := _coerce_int (pyDictGet kvs (pyStr "nextAttempt"))
                  error_type := pyDictGet kvs (pyStr "errorType")
                  error_message := pyDictGet kvs (pyStr "errorMessage") })
  | _ => .exn .attributeError

/-- `parse_phase_event` from `capture_screenshots.py`, parameterised by the
JSON decoder `jloads` (`none` models `json.JSONDecodeError`). -/
def parse_phase_event (jloads : List Char → Option Json) (line : List Char) :
    PyResult (Option HarnessPhaseEvent) :=
  let stripped := pyStrip line
  if harnessPhaseMarker.isPrefixOf stripped = false then .ok none
  else
    let payload := pyStrip (stripped.drop harnessPhaseMarker.length)
    if payload = [] then .ok none
    else
      match jloads payload with
      | none => .ok none
      | some data => parse_phase_payload data

/-- A JSON-decoder oracle given by a finite table of payloads. -/
def jloadsTable (tbl : List (List Char × Json)) : List Char → Option Json :=
  fun s => jsonLookup tbl s

/-- Specification-side check that all required phase-event fields are
present and well-formed. -/
def phaseRequiredOk (kvs : List (List Char × Json)) : Bool :=
  jsonEqStr (pyDictGet kvs (pyStr "event")) (pyStr "harness_phase") &&
  (nonEmptyStr (pyDictGet kvs (pyStr "type"))).isSome &&
  (nonEmptyStr (pyDictGet kvs (pyStr "component"))).isSome &&
  (nonEmptyStr (pyDictGet kvs (pyStr "operation"))).isSome &&
  (_coerce_int (pyDictGet kvs (pyStr "attempt"))).isSome

/-- Specification-side event assembled from a well-formed payload object. -/
def specEvent (kvs : List (List Char × Json)) : Option HarnessPhaseEvent :=
  if phaseRequiredOk kvs then
    some
      { type := (nonEmptyStr (pyDictGet kvs (pyStr "type"))).getD []
        component := (nonEmptyStr (pyDictGet kvs (pyStr "component"))).getD []
        operation := (nonEmptyStr (pyDictGet kvs (pyStr "operation"))).getD []
        attempt := (_coerce_int (pyDictGet kvs (pyStr "attempt"))).getD 0
        timestamp_ms := _coerce_int (pyDictGet kvs (pyStr "timestampMs"))
        context := coerceContext (pyDictGet kvs (pyStr "context"))
        checkpoint := pyDictGet kvs (pyStr "checkpoint")
        detail := pyDictGet kvs (pyStr "detail")
        next_attempt := _coerce_int (pyDictGet kvs (pyStr "nextAttempt"))
        error_type := pyDictGet kvs (pyStr "errorType")
        error_message := pyDictGet kvs (pyStr "errorMessage") }
  else none

/-- Specification-side behaviour of the phase-event parser, following the
spec's words (as amended): a line without the marker or with an empty
payload is not an event; malformed JSON is not an event; a well-formed
object payload yields the coerced event, an object payload missing a
required field yields no event; a payload that is valid JSON but not a JSON
object raises `AttributeError`. -/
def parse_phase_event_spec (jloads : List Char → Option Json)
    (line : List Char) : PyResult (Option HarnessPhaseEvent) :=
  let stripped := pyStrip line
  let payload := pyStrip (stripped.drop harnessPhaseMarker.length)
  if harnessPhaseMarker.isPrefixOf stripped && !payload.isEmpty then
    match jloads payload with
    | none => .ok none
    | some (Json.obj kvs) => .ok (specEvent kvs)
    | some _ => .exn .attributeError
  else .ok none

theorem parse_phase_payload_obj (kvs : List (List Char × Json)) :
    parse_phase_payload (Json.obj kvs) = .ok (specEvent kvs) := by
  unfold parse_phase_payload specEvent phaseRequiredOk
  cases hev : jsonEqStr (pyDictGet kvs (pyStr "event")) (pyStr "harness_phase") with
  | false => simp [hev]
  | true =>
    simp only [hev, Bool.true_and]
    cases hty : nonEmptyStr (pyDictGet kvs (pyStr "type")) with
    | none => simp [hty]
    | some ty =>
      cases hcomp : nonEmptyStr (pyDictGet kvs (pyStr "component")) with
      | none => simp [hty, hcomp]
      | some comp =>
        cases hop : nonEmptyStr (pyDictGet kvs (pyStr "operation")) with
        | none => simp [hty, hcomp, hop]
        | some op =>
          cases hat : _coerce_int (pyDictGet kvs (pyStr "attempt")) with
          | none => simp [hty, hcomp, hop, hat]
          | some attempt => simp [hty, hcomp, hop, hat]

/-- C3 (amended): `parse_phase_event` behaves exactly as the amended
specification describes: total (returning "not an event") on all inputs
except payloads that decode to a non-object JSON value, which raise
`AttributeError`; well-formed object payloads yield the string-coerced
event. -/
theorem parse_phase_event_characterization
    (jloads : List Char → Option Json) (line : List Char) :
    parse_phase_event jloads line = parse_phase_event_spec jloads line := by
  unfold parse_phase_event parse_phase_event_spec
  cases hpre : harnessPhaseMarker.isPrefixOf (pyStrip line) with
  | false => simp [hpre]
  | true =>
    simp only [hpre, Bool.true_and, Bool.false_eq_true, if_false]
    by_cases hpay : pyStrip ((pyStrip line).drop harnessPhaseMarker.length) = []
    · simp [hpay]
    · rw [if_neg hpay]
      have : (pyStrip ((pyStrip line).drop harnessPhaseMarker.length)).isEmpty =
          false := by
        simpa [List.isEmpty_iff] using hpay
      rw [this]
      simp only [Bool.not_false, if_true]
      cases hj : jloads (pyStrip ((pyStrip line).drop harnessPhaseMarker.length)) with
      | none => rfl
      | some v =>
        cases v with
        | obj kvs => exact parse_phase_payload_obj kvs
        | null => rfl
        | bool b => rfl
        | int n => rfl
        | float z r => rfl
        | str s => rfl
        | arr xs => rfl

/-- The decoder table for the C3 counterexample: `json.loads "[1]"` is the
one-element JSON array `[1]`. -/
def jloadsArrayDemo : List Char → Option Json :=
  jloadsTable [(pyStr "[1]", Json.arr [Json.int 1])]

/-- C3 counterexample: the line `HARNESS PHASE: [1]` carries a payload that
is valid JSON but not a JSON object; `data.get("event")` then raises
`AttributeError` instead of returning `None`, refuting the claim that
`parse_phase_event` returns `None` on every such line and never raises. -/
theorem parse_phase_event_not_total_on_array_payload :
    parse_phase_event jloadsArrayDemo (pyStr "HARNESS PHASE: [1]") =
      .exn .attributeError ∧
    (PyResult.exn PyExn.attributeError ≠
      (PyResult.ok none : PyResult (Option HarnessPhaseEvent))) :=
  ⟨rfl, fun h => PyResult.noConfusion h⟩

/-- C10: a JSON boolean `attempt` passes `_coerce_int` (Python `bool` is a
subclass of `int`), so an otherwise well-formed payload with
`attempt = true`/`false` is accepted as a phase event with attempt `1`/`0`. -/
theorem parse_phase_event_accepts_bool_attempt
    (jloads : List Char → Option Json) (line : List Char)
    (kvs : List (List Char × Json)) (b : Bool) (ty comp op : List Char)
    (hpre : harnessPhaseMarker.isPrefixOf (pyStrip line) = true)
    (hpay : pyStrip ((pyStrip line).drop harnessPhaseMarker.length) ≠ [])
    (hj : jloads (pyStrip ((pyStrip line).drop harnessPhaseMarker.length)) =
      some (Json.obj kvs))
    (hev : jsonEqStr (pyDictGet kvs (pyStr "event")) (pyStr "harness_phase") =
      true)
    (hty : nonEmptyStr (pyDictGet kvs (pyStr "type")) = some ty)
    (hcomp : nonEmptyStr (pyDictGet kvs (pyStr "component")) = some comp)
    (hop : nonEmptyStr (pyDictGet kvs (pyStr "operation")) = some op)
    (hat : pyDictGet kvs (pyStr "attempt") = some (Json.bool b)) :
    ∃ ev, parse_phase_event jloads line = .ok (some ev) ∧
      ev.attempt = (if b then 1 else 0) := by
  have hstep : parse_phase_event jloads line = parse_phase_payload (Json.obj kvs) := by
    unfold parse_phase_event
    simp [hpre, hpay, hj]
  rw [hstep]
  unfold parse_phase_payload
  simp only [hev, hty, hcomp, hop, hat, _coerce_int, Bool.true_eq_false, if_false]
  exact ⟨_, rfl, rfl⟩

/-- The decoder table for the C10 witness: the real `json.loads` result of
the payload used in the witness line. -/
def jloadsBoolAttemptDemo : List Char → Option Json :=
  jloadsTable
    [(pyStr
        "\x7b\"event\": \"harness_phase\", \"type\": \"start\", \"component\": \"Foo\", \"operation\": \"bar\", \"attempt\": true\x7d",
      Json.obj
        [(pyStr "event", Json.str (pyStr "harness_phase")),
         (pyStr "type", Json.str (pyStr "start")),
         (pyStr "component", Json.str (pyStr "Foo")),
         (pyStr "operation", Json.str (pyStr "bar")),
         (pyStr "attempt", Json.bool true)])]

/-- Witness for C10 at a concrete line. -/
theorem parse_phase_event_accepts_bool_attempt_witness :
    ∃ ev,
      parse_phase_event jloadsBoolAttemptDemo
        (pyStr
          "HARNESS PHASE: \x7b\"event\": \"harness_phase\", \"type\": \"start\", \"component\": \"Foo\", \"operation\": \"bar\", \"attempt\": true\x7d") =
        .ok (some ev) ∧
      ev.attempt = (if true then 1 else 0) :=
  parse_phase_event_accepts_bool_attempt jloadsBoolAttemptDemo _ _ true
    (pyStr "start") (pyStr "Foo") (pyStr "bar")
    (by decide) (by decide) rfl rfl rfl rfl rfl rfl

/-! ### String helpers shared by the classifiers and the resolver -/

/-- Leftmost match of the regex `<literal>(.+)`: the first position where the
literal occurs followed by at least one non-newline character; the greedy
group runs to the end of the line. -/
def reSearchLit (needle : List Char) : List Char → Option (List Char)
  | [] => none
  | c :: t =>
    if needle.isPrefixOf (c :: t) then
      let g := ((c :: t).drop needle.length).takeWhile (fun ch => ch ≠ '\n')
      if g ≠ [] then some g else reSearchLit needle t
    else reSearchLit needle t

/-- Python `str.split(sep)` for a single-character separator (keeps empty
pieces). -/
def splitOnChar (sep : Char) : List Char → List (List Char)
  | [] => [[]]
  | c :: t =>
    if c = sep then [] :: splitOnChar sep t
    else
      match splitOnChar sep t with
      | h :: r => (c :: h) :: r
      | [] => [[c]]

/-- Python `s.split("\n")`-style line splitting (`splitlines` as used on adb
output; a trailing `\r` is removed by the per-line `strip`). -/
def splitLinesPy (s : List Char) : List (List Char) := splitOnChar '\n' s

/-- Python `s.split(sep, 1)[0]`: the part before the first separator (the
whole string when the separator is absent). -/
def takeBeforeFirst (sep : Char) (s : List Char) : List Char :=
  s.takeWhile (fun c => c ≠ sep)

/-- Python `s.split(sep, 1)[1]` when the separator is present. -/
def dropAfterFirst (sep : Char) (s : List Char) : List Char :=
  ((s.dropWhile (fun c => c ≠ sep)).drop 1)

/-- Python substring test `needle in hay`. -/
def containsSub (needle : List Char) : List Char → Bool
  | [] => needle.isEmpty
  | c :: t => needle.isPrefixOf (c :: t) || containsSub needle t

/-- Insertion into a Python `set`/ordered collection modelled as a
duplicate-free list (membership only; iteration order is irrelevant to the
claims). -/
def insertSet (s : List (List Char)) (x : List Char) : List (List Char) :=
  if x ∈ s then s else s ++ [x]

/-- Fuel-driven matcher for the wildcard regexes built inline by
`_resolve_sanitized_package` and `_resolve_sanitized_instrumentation_component`
(`re.escape` followed by replacing the two-character escape sequence
backslash-star with `.*`): every pattern character is a literal except `*`,
which matches any run of non-newline characters.  Each recursive call
shrinks `p.length + s.length`, so `p.length + s.length + 1` fuel always
suffices.  (This is NOT the semantics of `_compile_wildcard_regex`, whose
replace target is the three-character string backslash-backslash-star; see
`_compile_wildcard_regex` below.) -/
def globMatchFuel : Nat → List Char → List Char → Bool
  | 0, _, _ => false
  | fuel + 1, p, s =>
    match p, s with
    | [], [] => true
    | [], _ :: _ => false
    | '*' :: ps, [] => globMatchFuel fuel ps []
    | '*' :: ps, c :: cs =>
      globMatchFuel fuel ps (c :: cs) ||
        (c ≠ '\n' && globMatchFuel fuel ('*' :: ps) cs)
    | _ :: _, [] => false
    | pc :: ps, c :: cs => pc == c && globMatchFuel fuel ps cs

/-- Anchored wildcard-regex match (see `globMatchFuel`). -/
def globMatch (p s : List Char) : Bool :=
  globMatchFuel (p.length + s.length + 1) p s

/-- Character class of `PACKAGE_NAME_PATTERN` (`^[A-Za-z0-9._]+$`). -/
def isPackageChar (c : Char) : Bool := pyIsAlnum c || c = '.' || c = '_'

/-- `PACKAGE_NAME_PATTERN.match` on newline-free candidates. -/
def packagePatternMatch (s : List Char) : Bool := !s.isEmpty && s.all isPackageChar

example : globMatch (pyStr "pkg.*") (pyStr "pkg.b") = true := by decide
example : globMatch (pyStr "pkg.*/Runner2") (pyStr "pkg.b/Runner2") = true := by
  decide
example : globMatch (pyStr "pkg.*/Runner2") (pyStr "pkg.a/Runner1") = false := by
  decide

/-! ### Test points (`tools/testpoints.py`) -/

/-- The closed enum of harness test point markers. -/
inductive HarnessTestPoint where
  | pre_initialization
  | cache_ready
  | ui_loaded
  | ready_for_screenshot
  | error_signaled
deriving DecidableEq

/-- `HarnessTestPoint.from_label`: enum lookup by value, `none` models the
raised-and-swallowed `ValueError` for unknown labels. -/
def from_label (label : List Char) : Option HarnessTestPoint :=
  if label = pyStr "pre_initialization" then some .pre_initialization
  else if label = pyStr "cache_ready" then some .cache_ready
  else if label = pyStr "ui_loaded" then some .ui_loaded
  else if label = pyStr "ready_for_screenshot" then some .ready_for_screenshot
  else if label = pyStr "error_signaled" then some .error_signaled
  else none

/-- The `HARNESS TESTPOINT: ` line marker (`PREFIX` in `testpoints.py`). -/
def testpointMarker : List Char := pyStr "HARNESS TESTPOINT: "

/-- `parse_testpoint` from `tools/testpoints.py`. -/
def parse_testpoint (line : List Char) :
    Option (HarnessTestPoint × Option (List Char)) :=
  let stripped := pyStrip line
  if testpointMarker.isPrefixOf stripped = false then none
  else
    let payload := pyStrip (stripped.drop testpointMarker.length)
    if payload = [] then none
    else
      let (label, detail) :=
        if ':' ∈ payload then
          (takeBeforeFirst ':' payload,
           let d := pyStrip (dropAfterFirst ':' payload)
           if d = [] then none else some d)
        else (payload, none)
      match from_label (pyStrip label) with
      | none => none
      | some point => some (point, detail)

example :
    parse_testpoint (pyStr "HARNESS TESTPOINT: cache_ready: directories=/tmp") =
      some (.cache_ready, some (pyStr "directories=/tmp")) := by decide
example : parse_testpoint (pyStr "HARNESS TESTPOINT: bogus") = none := by decide

/-! ### Device oracle and package-name normalization -/

/-- Oracle for the adb round-trips used by resolution and normalization.
A `none` output models a `subprocess.CalledProcessError`.
`pmListInstrumentation q` is `adb shell pm list instrumentation` with the
optional scoping query `q`. -/
structure Device where
  pmListPackages : Option (List Char)
  pmListInstrumentation : Option (List Char) → Option (List Char)

/-- `_resolve_sanitized_package`: match the wildcard pattern against the
device's package list; on several matches prefer one ending with the
pattern's last segment after `*`. -/
def _resolve_sanitized_package (dev : Device) (pattern : List Char) :
    Option (List Char) :=
  match dev.pmListPackages with
  | none => none
  | some output =>
    let matches_ := (splitLinesPy output).filterMap (fun line =>
      let stripped := pyStrip line
      if (pyStr "package:").isPrefixOf stripped then
        let package_name := pyStrip (stripped.drop (pyStr "package:").length)
        if globMatch pattern package_name then some package_name else none
      else none)
    match matches_ with
    | [] => none
    | first :: rest =>
      if rest ≠ [] then
        let suffix := (splitOnChar '*' pattern).getLast?.getD []
        if suffix ≠ [] then
          match (first :: rest).find? (fun m => suffix.isSuffixOf m) with
          | some m => some m
          | none => some first
        else some first
      else some first

/-- `normalize_package_name` from `capture_screenshots.py`. -/
def normalize_package_name (dev : Device) (candidate : List Char) :
    Option (List Char) :=
  let value := pyStrip candidate
  if value = [] then none
  else if packagePatternMatch value then some value
  else
    let resolved :=
      if '*' ∈ value then _resolve_sanitized_package dev value else none
    match resolved with
    | some r => some r
    | none =>
      let sanitized := value.filter isPackageChar
      if sanitized ≠ [] ∧ packagePatternMatch sanitized then some sanitized
      else none

example :
    normalize_package_name ⟨none, fun _ => none⟩ (pyStr "com.example.App!") =
      some (pyStr "com.example.App") := by decide

/-! ### Session state (`HarnessContext`) -/

/-- Grouping key of `_phase_attempt_events`: `(component, operation,
attempt)`. -/
abbrev PhaseKey := List Char × List Char × Int

/-- The `HarnessSession` aggregate (`HarnessContext.__init__`).  Python sets
are modelled as duplicate-free lists; the testpoint dispatcher is modelled
by its observable event log (no callbacks are registered by
`run_instrumentation_once`, so dispatch only appends to it). -/
structure HarnessContext where
  package : Option (List Char)
  ready_flags : List (List Char)
  done_flags : List (List Char)
  capture_completed : Bool
  system_crash_detected : Bool
  process_crash_detected : Bool
  missing_instrumentation_detected : Bool
  sanitized_package_warning_emitted : Bool
  system_crash_guidance_emitted : Bool
  missing_instrumentation_guidance_emitted : Bool
  testpoint_events : List (HarnessTestPoint × Option (List Char))
  instrumentation_components : List (List Char)
  candidate_packages : List (List Char)
  phase_events : List HarnessPhaseEvent
  phase_attempt_events : List (PhaseKey × List HarnessPhaseEvent)
  phase_guidance_emitted : Bool

/-- The all-false, all-empty state every field starts from. -/
def HarnessContext.empty : HarnessContext :=
  { package := none, ready_flags := [], done_flags := []
    capture_completed := false, system_crash_detected := false
    process_crash_detected := false, missing_instrumentation_detected := false
    sanitized_package_warning_emitted := false
    system_crash_guidance_emitted := false
    missing_instrumentation_guidance_emitted := false
    testpoint_events := [], instrumentation_components := []
    candidate_packages := [], phase_events := [], phase_attempt_events := []
    phase_guidance_emitted := false }

/-- `HarnessContext._normalize_package`. -/
def HarnessContext._normalize_package (dev : Device) (candidate : List Char) :
    Option (List Char) :=
  let value := pyStrip candidate
  if value = [] then none else normalize_package_name dev value

/-- `HarnessContext._maybe_set_package`; the returned `Bool` is the Python
return value. -/
def HarnessContext._maybe_set_package (dev : Device) (c : HarnessContext)
    (candidate : List Char) (suppress_warning : Bool) :
    HarnessContext × Bool :=
  match HarnessContext._normalize_package dev candidate with
  | some normalized =>
    ({ c with package := some normalized,
              candidate_packages := insertSet c.candidate_packages normalized },
     true)
  | none =>
    if suppress_warning = false ∧ c.sanitized_package_warning_emitted = false then
      ({ c with sanitized_package_warning_emitted := true }, false)
    else (c, false)

/-- `HarnessContext.__init__` with an optional truthy fallback package. -/
def HarnessContext.initial (dev : Device) (fallback_package : Option (List Char)) :
    HarnessContext :=
  match fallback_package with
  | some fp =>
    if fp ≠ [] then
      (HarnessContext._maybe_set_package dev HarnessContext.empty fp true).1
    else HarnessContext.empty
  | none => HarnessContext.empty

/-- `HarnessContext._handle_phase_event`: append to the flat log and to the
per-`(component, operation, attempt)` group (`dict.setdefault(...).append`);
the `abort`/`retry` alert printing has no session-state effect. -/
def groupAppend (g : List (PhaseKey × List HarnessPhaseEvent)) (k : PhaseKey)
    (ev : HarnessPhaseEvent) : List (PhaseKey × List HarnessPhaseEvent) :=
  match g with
  | [] => [(k, [ev])]
  | (k', evs) :: rest =>
    if k' = k then (k', evs ++ [ev]) :: rest
    else (k', evs) :: groupAppend rest k ev

def HarnessContext._handle_phase_event (c : HarnessContext)
    (ev : HarnessPhaseEvent) : HarnessContext :=
  { c with
    phase_events := c.phase_events ++ [ev]
    phase_attempt_events :=
      groupAppend c.phase_attempt_events (ev.component, ev.operation, ev.attempt) ev }

/-- Testpoint dispatch step of `observe_line` (appends to the dispatcher's
event log). -/
def HarnessContext.applyTestpoint (c : HarnessContext) (stripped : List Char) :
    HarnessContext :=
  match parse_testpoint stripped with
  | some pd => { c with testpoint_events := c.testpoint_events ++ [pd] }
  | none => c

/-- Phase-event dispatch step of `observe_line`. -/
def HarnessContext.applyPhase (c : HarnessContext)
    (parsed : Option HarnessPhaseEvent) : HarnessContext :=
  match parsed with
  | some ev => HarnessContext._handle_phase_event c ev
  | none => c

/-- Substring-triggered crash and missing-instrumentation flags of
`observe_line`. -/
def HarnessContext.applyCrashFlags (c : HarnessContext) (stripped : List Char) :
    HarnessContext :=
  let c :=
    if containsSub (pyStr "System has crashed") stripped then
      { c with system_crash_detected := true }
    else c
  let c :=
    if (pyStr "INSTRUMENTATION_ABORTED").isPrefixOf stripped &&
        containsSub (pyStr "System has crashed") stripped then
      { c with system_crash_detected := true }
    else c
  let c :=
    if containsSub (pyStr "Process crashed") stripped then
      { c with process_crash_detected := true }
    else c
  let c :=
    if containsSub (pyStr "Unable to find instrumentation info for") stripped then
      { c with missing_instrumentation_detected := true }
    else c
  c

/-- `HarnessContext.observe_line`: testpoint dispatch, phase-event handling
(which can propagate `parse_phase_event`'s `AttributeError`), then the
substring-triggered crash/missing-instrumentation flags. -/
def HarnessContext.observe_line (jloads : List Char → Option Json)
    (c : HarnessContext) (line : List Char) : HarnessContext × Option PyExn :=
  match parse_phase_event jloads (pyStrip line) with
  | .exn e => (HarnessContext.applyTestpoint c (pyStrip line), some e)
  | .ok parsed =>
    (HarnessContext.applyCrashFlags
      (HarnessContext.applyPhase (HarnessContext.applyTestpoint c (pyStrip line))
        parsed)
      (pyStrip line),
     none)

/-- `HarnessContext.maybe_collect_ready_flag`. -/
def HarnessContext.maybe_collect_ready_flag (c : HarnessContext)
    (line : List Char) : HarnessContext :=
  match reSearchLit (pyStr "Writing screenshot ready flag to ") line with
  | some g =>
    let path := pyStrip g
    if path ≠ [] ∧ path ∉ c.ready_flags then
      { c with ready_flags := c.ready_flags ++ [path] }
    else c
  | none => c

/-- `HarnessContext.maybe_collect_done_flags`. -/
def HarnessContext.maybe_collect_done_flags (c : HarnessContext)
    (line : List Char) : HarnessContext :=
  match reSearchLit (pyStr "completion signal at ") line with
  | none => c
  | some raw =>
    let candidates := (splitOnChar ',' raw).map pyStrip
    { c with done_flags := candidates.filter (fun cand => cand ≠ []) }

/-- `HarnessContext.maybe_collect_package`. -/
def HarnessContext.maybe_collect_package (dev : Device) (c : HarnessContext)
    (line : List Char) : HarnessContext :=
  match reSearchLit (pyStr "Resolved screenshot harness package name: ") line with
  | none => c
  | some g =>
    let candidate := pyStrip g
    if candidate = [] then c
    else
      match HarnessContext._maybe_set_package dev c candidate false with
      | (c', true) => c'
      | (c', false) =>
        if c'.sanitized_package_warning_emitted = false then
          { c' with sanitized_package_warning_emitted := true }
        else c'

/-- `HarnessContext.maybe_emit_system_crash_guidance`; the `Bool` records
whether the one-shot message was printed by this call. -/
def HarnessContext.maybe_emit_system_crash_guidance (c : HarnessContext) :
    HarnessContext × Bool :=
  if c.system_crash_detected = false ∨ c.system_crash_guidance_emitted = true then
    (c, false)
  else ({ c with system_crash_guidance_emitted := true }, true)

/-- `HarnessContext.maybe_emit_missing_instrumentation_guidance`. -/
def HarnessContext.maybe_emit_missing_instrumentation_guidance
    (c : HarnessContext) : HarnessContext × Bool :=
  if c.missing_instrumentation_detected = false ∨
      c.missing_instrumentation_guidance_emitted = true then
    (c, false)
  else ({ c with missing_instrumentation_guidance_emitted := true }, true)

/-! ### The capture-handshake streaming loop of `run_instrumentation_once` -/

/-- Python truthiness of an optional string (`if not ctx.package`). -/
def pyOptTruthy (o : Option (List Char)) : Bool :=
  match o with
  | some s => !s.isEmpty
  | none => false

/-- Oracles of one streamed attempt: the JSON decoder, the device, the
`run-as <pkg> cat <flag>` file reads, and whether the capture/signal step
(adb `screencap` / done-flag write, `int(...)` of the payload) raises for a
given payload. -/
structure LoopOracles where
  jloads : List Char → Option Json
  dev : Device
  cat : List Char → List Char → Option (List Char)
  captureRaises : List Char → Bool

/-- Inner loop of `read_ready_payload`: first ready-flag path whose read
succeeds with non-empty stripped content. -/
def read_ready_payload_go (cat : List Char → List Char → Option (List Char))
    (pkg : List Char) : List (List Char) → Option (List Char)
  | [] => none
  | flag :: rest =>
    match cat pkg flag with
    | none => read_ready_payload_go cat pkg rest
    | some output =>
      let out := pyStrip output
      if out ≠ [] then some out else read_ready_payload_go cat pkg rest

/-- `read_ready_payload` from `capture_screenshots.py`. -/
def read_ready_payload (o : LoopOracles) (c : HarnessContext) :
    Option (List Char) :=
  if pyOptTruthy c.package = false ∨ c.ready_flags = [] then none
  else read_ready_payload_go o.cat (c.package.getD []) c.ready_flags

/-- Per-line observable outcome of the streaming loop body.  `guard` is the
session state at the moment the handshake guard is evaluated (after the
three collectors ran on this line); for a line whose classification raised
(`observeRaised`) the guard is never reached and `guard` holds the state
after the partial classification. -/
structure StepInfo where
  guard : HarnessContext
  attempted : Bool
  completedNow : Bool
  observeRaised : Bool
  captureRaised : Bool

/-- One iteration of the `for line in stream_instrumentation_output(...)`
body: `observe_line` (inside the generator), the three collectors, then the
guarded capture-handshake transition. -/
def loopStep (o : LoopOracles) (c : HarnessContext) (line : List Char) :
    HarnessContext × StepInfo :=
  match HarnessContext.observe_line o.jloads c line with
  | (c', some _) => (c', ⟨c', false, false, true, false⟩)
  | (c', none) =>
    let c1 := HarnessContext.maybe_collect_package o.dev c' line
    let c2 := HarnessContext.maybe_collect_ready_flag c1 line
    let c3 := HarnessContext.maybe_collect_done_flags c2 line
    if c3.capture_completed = false ∧ pyOptTruthy c3.package = true ∧
        c3.ready_flags ≠ [] ∧ c3.done_flags ≠ [] then
      match read_ready_payload o c3 with
      | none => (c3, ⟨c3, true, false, false, false⟩)
      | some payload =>
        if o.captureRaises payload then (c3, ⟨c3, true, false, false, true⟩)
        else
          ({ c3 with capture_completed := true }, ⟨c3, true, true, false, false⟩)
    else (c3, ⟨c3, false, false, false, false⟩)

/-- Run the streaming loop over a line sequence, stopping at an uncaught
exception; the trace records the post-line state and outcome of each
processed line. -/
def runLoop (o : LoopOracles) :
    HarnessContext → List (List Char) →
      HarnessContext × List (HarnessContext × StepInfo)
  | c, [] => (c, [])
  | c, line :: rest =>
    let s := loopStep o c line
    if s.2.observeRaised || s.2.captureRaised then (s.1, [s])
    else
      let r := runLoop o s.1 rest
      (r.1, s :: r.2)

/-- Fields of the session state that `observe_line` and the collectors never
touch: the capture flag and the three one-shot guidance flags. -/
def untouchedFlags (a b : HarnessContext) : Prop :=
  a.capture_completed = b.capture_completed ∧
  a.system_crash_guidance_emitted = b.system_crash_guidance_emitted ∧
  a.missing_instrumentation_guidance_emitted =
    b.missing_instrumentation_guidance_emitted ∧
  a.phase_guidance_emitted = b.phase_guidance_emitted

theorem untouchedFlags_refl (a : HarnessContext) : untouchedFlags a a :=
  ⟨rfl, rfl, rfl, rfl⟩

theorem untouchedFlags_trans {a b c : HarnessContext}
    (h1 : untouchedFlags a b) (h2 : untouchedFlags b c) : untouchedFlags a c :=
  ⟨h1.1.trans h2.1, h1.2.1.trans h2.2.1, h1.2.2.1.trans h2.2.2.1,
   h1.2.2.2.trans h2.2.2.2⟩

theorem applyTestpoint_untouched (c : HarnessContext) (s : List Char) :
    untouchedFlags (HarnessContext.applyTestpoint c s) c := by
  unfold HarnessContext.applyTestpoint
  cases parse_testpoint s <;> exact ⟨rfl, rfl, rfl, rfl⟩

theorem applyPhase_untouched (c : HarnessContext)
    (p : Option HarnessPhaseEvent) :
    untouchedFlags (HarnessContext.applyPhase c p) c := by
  unfold HarnessContext.applyPhase HarnessContext._handle_phase_event
  cases p <;> exact ⟨rfl, rfl, rfl, rfl⟩

theorem applyCrashFlags_untouched (c : HarnessContext) (s : List Char) :
    untouchedFlags (HarnessContext.applyCrashFlags c s) c := by
  unfold HarnessContext.applyCrashFlags
  split_ifs <;> exact ⟨rfl, rfl, rfl, rfl⟩

theorem observe_line_untouched (j : List Char → Option Json)
    (c : HarnessContext) (l : List Char) :
    untouchedFlags (HarnessContext.observe_line j c l).1 c := by
  unfold HarnessContext.observe_line
  cases parse_phase_event j (pyStrip l) with
  | exn e => exact applyTestpoint_untouched c (pyStrip l)
  | ok parsed =>
    exact untouchedFlags_trans
      (untouchedFlags_trans
        (applyCrashFlags_untouched _ (pyStrip l))
        (applyPhase_untouched _ parsed))
      (applyTestpoint_untouched c (pyStrip l))

theorem _maybe_set_package_untouched (dev : Device) (c : HarnessContext)
    (cand : List Char) (sw : Bool) :
    untouchedFlags (HarnessContext._maybe_set_package dev c cand sw).1 c := by
  unfold HarnessContext._maybe_set_package
  cases HarnessContext._normalize_package dev cand with
  | some n => exact ⟨rfl, rfl, rfl, rfl⟩
  | none => split_ifs <;> exact ⟨rfl, rfl, rfl, rfl⟩

theorem maybe_collect_package_untouched (dev : Device) (c : HarnessContext)
    (l : List Char) :
    untouchedFlags (HarnessContext.maybe_collect_package dev c l) c := by
  unfold HarnessContext.maybe_collect_package
  cases reSearchLit (pyStr "Resolved screenshot harness package name: ") l with
  | none => exact untouchedFlags_refl c
  | some g =>
    dsimp only
    by_cases hc : pyStrip g = []
    · rw [if_pos hc]
      exact untouchedFlags_refl c
    · rw [if_neg hc]
      have hu := _maybe_set_package_untouched dev c (pyStrip g) false
      rcases hms : HarnessContext._maybe_set_package dev c (pyStrip g) false with
        ⟨c', b⟩
      rw [hms] at hu
      cases b with
      | true => exact hu
      | false =>
        dsimp only
        split_ifs with hw
        · exact untouchedFlags_trans ⟨rfl, rfl, rfl, rfl⟩ hu
        · exact hu

theorem maybe_collect_ready_flag_untouched (c : HarnessContext) (l : List Char) :
    untouchedFlags (HarnessContext.maybe_collect_ready_flag c l) c := by
  unfold HarnessContext.maybe_collect_ready_flag
  cases reSearchLit (pyStr "Writing screenshot ready flag to ") l with
  | none => exact untouchedFlags_refl c
  | some g =>
    dsimp only
    split_ifs <;> exact ⟨rfl, rfl, rfl, rfl⟩

theorem maybe_collect_done_flags_untouched (c : HarnessContext) (l : List Char) :
    untouchedFlags (HarnessContext.maybe_collect_done_flags c l) c := by
  unfold HarnessContext.maybe_collect_done_flags
  cases reSearchLit (pyStr "completion signal at ") l with
  | none => exact untouchedFlags_refl c
  | some raw => exact ⟨rfl, rfl, rfl, rfl⟩

/-- The capture-handshake guard exactly as the claim states it: package set
(to a usable, non-empty value — Python truthiness), at least one ready flag,
at least one done flag, capture not yet completed. -/
def handshakeGuard (c : HarnessContext) : Prop :=
  c.capture_completed = false ∧ pyOptTruthy c.package = true ∧
  c.ready_flags ≠ [] ∧ c.done_flags ≠ []

theorem loopStep_guard_untouched (o : LoopOracles) (c : HarnessContext)
    (line : List Char) : untouchedFlags (loopStep o c line).2.guard c := by
  unfold loopStep
  have ho := observe_line_untouched o.jloads c line
  rcases hobs : HarnessContext.observe_line o.jloads c line with ⟨c', oe⟩
  rw [hobs] at ho
  cases oe with
  | some e => exact ho
  | none =>
    dsimp only
    have h3 : untouchedFlags
        (HarnessContext.maybe_collect_done_flags
          (HarnessContext.maybe_collect_ready_flag
            (HarnessContext.maybe_collect_package o.dev c' line) line) line) c :=
      untouchedFlags_trans (maybe_collect_done_flags_untouched _ line)
        (untouchedFlags_trans (maybe_collect_ready_flag_untouched _ line)
          (untouchedFlags_trans (maybe_collect_package_untouched o.dev c' line) ho))
    split_ifs with hg
    · cases hrp : read_ready_payload o
        (HarnessContext.maybe_collect_done_flags
          (HarnessContext.maybe_collect_ready_flag
            (HarnessContext.maybe_collect_package o.dev c' line) line) line) with
      | none => exact h3
      | some payload => dsimp only; split_ifs <;> exact h3
    · exact h3

theorem loopStep_attempted_iff (o : LoopOracles) (c : HarnessContext)
    (line : List Char) :
    (loopStep o c line).2.observeRaised = false →
      ((loopStep o c line).2.attempted = true ↔
        handshakeGuard (loopStep o c line).2.guard) := by
  unfold loopStep
  rcases hobs : HarnessContext.observe_line o.jloads c line with ⟨c', oe⟩
  cases oe with
  | some e => intro h; exact absurd h (by simp)
  | none =>
    dsimp only
    intro _
    split_ifs with hg
    · cases hrp : read_ready_payload o
        (HarnessContext.maybe_collect_done_flags
          (HarnessContext.maybe_collect_ready_flag
            (HarnessContext.maybe_collect_package o.dev c' line) line) line) with
      | none => simpa [handshakeGuard] using hg
      | some payload =>
        dsimp only
        split_ifs with hcr
        · simpa [handshakeGuard] using hg
        · simpa [handshakeGuard] using hg
    · constructor
      · intro h; exact absurd h (by simp)
      · intro h; exact absurd h (by simpa [handshakeGuard] using hg)

theorem loopStep_completedNow_guard (o : LoopOracles) (c : HarnessContext)
    (line : List Char) :
    (loopStep o c line).2.completedNow = true →
      (loopStep o c line).2.guard.capture_completed = false := by
  unfold loopStep
  rcases hobs : HarnessContext.observe_line o.jloads c line with ⟨c', oe⟩
  cases oe with
  | some e => intro h; exact absurd h (by simp)
  | none =>
    dsimp only
    split_ifs with hg
    · cases hrp : read_ready_payload o
        (HarnessContext.maybe_collect_done_flags
          (HarnessContext.maybe_collect_ready_flag
            (HarnessContext.maybe_collect_package o.dev c' line) line) line) with
      | none => intro h; exact absurd h (by simp)
      | some payload =>
        dsimp only
        split_ifs with hcr
        · intro h; exact absurd h (by simp)
        · intro _; exact hg.1
    · intro h; exact absurd h (by simp)

theorem collect3_untouched (dev : Device) (c' : HarnessContext)
    (line : List Char) :
    untouchedFlags
      (((HarnessContext.maybe_collect_package dev c' line).maybe_collect_ready_flag
          line).maybe_collect_done_flags line) c' :=
  untouchedFlags_trans (maybe_collect_done_flags_untouched _ line)
    (untouchedFlags_trans (maybe_collect_ready_flag_untouched _ line)
      (maybe_collect_package_untouched dev c' line))

theorem loopStep_post_capture (o : LoopOracles) (c : HarnessContext)
    (line : List Char) :
    (loopStep o c line).1.capture_completed =
      ((loopStep o c line).2.completedNow || c.capture_completed) := by
  unfold loopStep
  have ho := observe_line_untouched o.jloads c line
  rcases hobs : HarnessContext.observe_line o.jloads c line with ⟨c', oe⟩
  rw [hobs] at ho
  cases oe with
  | some e =>
    dsimp only
    simpa using ho.1
  | none =>
    dsimp only
    have h3 := untouchedFlags_trans (collect3_untouched o.dev c' line) ho
    split_ifs with hg
    · cases read_ready_payload o
        (((HarnessContext.maybe_collect_package o.dev c' line).maybe_collect_ready_flag
            line).maybe_collect_done_flags line) with
      | none =>
        dsimp only
        simpa using h3.1
      | some payload =>
        dsimp only
        split_ifs with hcr
        · simpa using h3.1
        · simp
    · dsimp only
      simpa using h3.1

/-- Number of capture-completion transitions recorded in a loop trace. -/
def countCompletions (tr : List (HarnessContext × StepInfo)) : Nat :=
  (tr.filter (fun e => e.2.completedNow)).length

theorem runLoop_entries (o : LoopOracles) :
    ∀ (lines : List (List Char)) (c : HarnessContext),
      ∀ e ∈ (runLoop o c lines).2,
        (e.2.observeRaised = false →
          (e.2.attempted = true ↔ handshakeGuard e.2.guard)) ∧
        (e.2.completedNow = true → e.2.guard.capture_completed = false) := by
  intro lines
  induction lines with
  | nil => intro c e he; simp [runLoop] at he
  | cons line rest ih =>
    intro c e he
    unfold runLoop at he
    dsimp only at he
    split_ifs at he with hr
    · simp only [List.mem_singleton] at he
      subst he
      exact ⟨loopStep_attempted_iff o c line, loopStep_completedNow_guard o c line⟩
    · simp only [List.mem_cons] at he
      rcases he with he | he
      · subst he
        exact ⟨loopStep_attempted_iff o c line, loopStep_completedNow_guard o c line⟩
      · exact ih _ e he

theorem loopStep_no_completion_of_completed (o : LoopOracles)
    (c : HarnessContext) (line : List Char)
    (hc : c.capture_completed = true) :
    (loopStep o c line).2.completedNow = false := by
  by_cases hcn : (loopStep o c line).2.completedNow = true
  · have hguard := loopStep_completedNow_guard o c line hcn
    have hgu := (loopStep_guard_untouched o c line).1
    rw [hguard] at hgu
    rw [hc] at hgu
    exact absurd hgu (by simp)
  · simpa using hcn

theorem runLoop_count_zero (o : LoopOracles) :
    ∀ (lines : List (List Char)) (c : HarnessContext),
      c.capture_completed = true →
        countCompletions (runLoop o c lines).2 = 0 := by
  intro lines
  induction lines with
  | nil => intro c _; rfl
  | cons line rest ih =>
    intro c hc
    have hcn := loopStep_no_completion_of_completed o c line hc
    have hpost : (loopStep o c line).1.capture_completed = true := by
      rw [loopStep_post_capture, hcn, hc]
      rfl
    unfold runLoop
    dsimp only
    split_ifs with hr
    · simp [countCompletions, hcn]
    · simp only [countCompletions, List.filter_cons, hcn]
      exact ih _ hpost

theorem runLoop_count_le_one (o : LoopOracles) :
    ∀ (lines : List (List Char)) (c : HarnessContext),
      c.capture_completed = false →
        countCompletions (runLoop o c lines).2 ≤ 1 := by
  intro lines
  induction lines with
  | nil => intro c _; simp [runLoop, countCompletions]
  | cons line rest ih =>
    intro c hc
    unfold runLoop
    dsimp only
    by_cases hcn : (loopStep o c line).2.completedNow = true
    · have hpost : (loopStep o c line).1.capture_completed = true := by
        rw [loopStep_post_capture, hcn]
        rfl
      split_ifs with hr
      · simp [countCompletions, hcn]
      · have hz := runLoop_count_zero o rest _ hpost
        simp only [countCompletions] at hz ⊢
        simp [List.filter_cons, hcn, hz]
    · have hcn' : (loopStep o c line).2.completedNow = false := by simpa using hcn
      have hpost : (loopStep o c line).1.capture_completed = false := by
        rw [loopStep_post_capture, hcn', hc]
        rfl
      split_ifs with hr
      · simp [countCompletions, hcn']
      · simp only [countCompletions, List.filter_cons, hcn']
        exact ih _ hpost

theorem initial_capture (dev : Device) (fb : Option (List Char)) :
    (HarnessContext.initial dev fb).capture_completed = false := by
  unfold HarnessContext.initial
  cases fb with
  | none => rfl
  | some fp =>
    dsimp only
    split_ifs with h
    · exact (_maybe_set_package_untouched dev HarnessContext.empty fp true).1
    · rfl

/-- C1: in the streaming loop of `run_instrumentation_once` over a fresh
`HarnessContext`, the capture-handshake transition is attempted at a line
exactly when, after that line's collectors ran, the package is set (truthy),
at least one ready flag and one done flag are known, and
`capture_completed` is still false; each completion happens from the
`capture_completed = false` state, and `capture_completed` flips from false
to true at most once per session.  (A line whose classification raises the
`AttributeError` of C3 aborts the loop before the guard and attempts
nothing.) -/
theorem capture_handshake_transition (o : LoopOracles)
    (fallback : Option (List Char)) (lines : List (List Char)) :
    (∀ e ∈ (runLoop o (HarnessContext.initial o.dev fallback) lines).2,
      (e.2.observeRaised = false →
        (e.2.attempted = true ↔ handshakeGuard e.2.guard)) ∧
      (e.2.completedNow = true → e.2.guard.capture_completed = false)) ∧
    countCompletions
        (runLoop o (HarnessContext.initial o.dev fallback) lines).2 ≤ 1 :=
  ⟨runLoop_entries o lines _,
   runLoop_count_le_one o lines _ (initial_capture o.dev fallback)⟩

/-- Demo device: every adb round-trip fails. -/
def demoDevice : Device := ⟨none, fun _ => none⟩

/-- Demo oracles: the ready-payload read succeeds with the §8 scenario
payload and the capture step does not raise. -/
def demoOracles : LoopOracles :=
  { jloads := fun _ => none
    dev := demoDevice
    cat := fun _pkg _flag => some (pyStr "\x7b\"documentId\":\"Doc 1\",\"pageIndex\":0\x7d")
    captureRaises := fun _ => false }

/-- The §8 scenario lines: package announcement, ready flag, done flag. -/
def demoLines : List (List Char) :=
  [pyStr "Resolved screenshot harness package name: com.example.app",
   pyStr "Writing screenshot ready flag to /tmp/r",
   pyStr "completion signal at /tmp/d"]

/-- Witness for C1: on the §8 scenario the transition is attempted exactly
at the third line, completes there, and the completion count is at most
one. -/
theorem capture_handshake_transition_witness :
    ((runLoop demoOracles (HarnessContext.initial demoOracles.dev none)
        demoLines).2.map (fun e => (e.2.attempted, e.2.completedNow))) =
      [(false, false), (false, false), (true, true)] ∧
    countCompletions
        (runLoop demoOracles (HarnessContext.initial demoOracles.dev none)
          demoLines).2 ≤ 1 :=
  ⟨rfl, (capture_handshake_transition demoOracles none demoLines).2⟩

/-! ### C5: ready-flag deduplication and done-flag replacement -/

/-- The ready-flag path announced by a line, if any (the collector's regex
match with a non-empty stripped group). -/
def extractReadyPath (line : List Char) : Option (List Char) :=
  match reSearchLit (pyStr "Writing screenshot ready flag to ") line with
  | some g =>
    let p := pyStrip g
    if p = [] then none else some p
  | none => none

/-- The done-flag list announced by a line, if any. -/
def extractDoneFlags (line : List Char) : Option (List (List Char)) :=
  (reSearchLit (pyStr "completion signal at ") line).map
    (fun raw => ((splitOnChar ',' raw).map pyStrip).filter (fun cand => cand ≠ []))

/-- First-seen-order deduplication (specification side). -/
def dedupFirst : List (List Char) → List (List Char)
  | [] => []
  | x :: xs => x :: (dedupFirst xs).filter (fun y => y ≠ x)

/-- Append-if-absent, the effect of one ready-flag announcement. -/
def insertNewR (R : List (List Char)) (p : List Char) : List (List Char) :=
  if p ∈ R then R else R ++ [p]

/-- One line of collector processing as run by the streaming loop (ready
then done). -/
def collectFold (c : HarnessContext) (lines : List (List Char)) :
    HarnessContext :=
  lines.foldl
    (fun c l =>
      HarnessContext.maybe_collect_done_flags
        (HarnessContext.maybe_collect_ready_flag c l) l) c

theorem maybe_collect_ready_flag_ready (c : HarnessContext) (l : List Char) :
    (HarnessContext.maybe_collect_ready_flag c l).ready_flags =
      match extractReadyPath l with
      | some p => insertNewR c.ready_flags p
      | none => c.ready_flags := by
  unfold HarnessContext.maybe_collect_ready_flag extractReadyPath insertNewR
  cases reSearchLit (pyStr "Writing screenshot ready flag to ") l with
  | none => rfl
  | some g =>
    dsimp only
    by_cases hp : pyStrip g = []
    · simp [hp]
    · by_cases hm : pyStrip g ∈ c.ready_flags
      · simp [hp, hm]
      · simp [hp, hm]

theorem maybe_collect_done_flags_ready (c : HarnessContext) (l : List Char) :
    (HarnessContext.maybe_collect_done_flags c l).ready_flags = c.ready_flags := by
  unfold HarnessContext.maybe_collect_done_flags
  cases reSearchLit (pyStr "completion signal at ") l <;> rfl

theorem maybe_collect_ready_flag_done (c : HarnessContext) (l : List Char) :
    (HarnessContext.maybe_collect_ready_flag c l).done_flags = c.done_flags := by
  unfold HarnessContext.maybe_collect_ready_flag
  cases reSearchLit (pyStr "Writing screenshot ready flag to ") l with
  | none => rfl
  | some g =>
    dsimp only
    split_ifs <;> rfl

theorem maybe_collect_done_flags_done (c : HarnessContext) (l : List Char) :
    (HarnessContext.maybe_collect_done_flags c l).done_flags =
      match extractDoneFlags l with
      | some d => d
      | none => c.done_flags := by
  unfold HarnessContext.maybe_collect_done_flags extractDoneFlags
  cases reSearchLit (pyStr "completion signal at ") l <;> rfl

theorem collectFold_components :
    ∀ (lines : List (List Char)) (c : HarnessContext),
      (collectFold c lines).ready_flags =
        (lines.filterMap extractReadyPath).foldl insertNewR c.ready_flags ∧
      (collectFold c lines).done_flags =
        lines.foldl
          (fun d l =>
            match extractDoneFlags l with
            | some nd => nd
            | none => d) c.done_flags := by
  intro lines
  induction lines with
  | nil => intro c; exact ⟨rfl, rfl⟩
  | cons line rest ih =>
    intro c
    have hstep := ih
      (HarnessContext.maybe_collect_done_flags
        (HarnessContext.maybe_collect_ready_flag c line) line)
    constructor
    · rw [show collectFold c (line :: rest) =
          collectFold
            (HarnessContext.maybe_collect_done_flags
              (HarnessContext.maybe_collect_ready_flag c line) line) rest from rfl]
      rw [hstep.1, maybe_collect_done_flags_ready, maybe_collect_ready_flag_ready]
      cases hx : extractReadyPath line with
      | none => simp [List.filterMap_cons, hx]
      | some p => simp [List.filterMap_cons, hx]
    · rw [show collectFold c (line :: rest) =
          collectFold
            (HarnessContext.maybe_collect_done_flags
              (HarnessContext.maybe_collect_ready_flag c line) line) rest from rfl]
      rw [hstep.2, maybe_collect_done_flags_done, maybe_collect_ready_flag_done]
      rw [List.foldl_cons]

theorem nodup_dedupFirst (A : List (List Char)) : (dedupFirst A).Nodup := by
  induction A with
  | nil => exact List.nodup_nil
  | cons x xs ih =>
    refine List.Nodup.cons ?_ (ih.filter _)
    intro hx
    have := List.of_mem_filter hx
    simp at this

theorem foldl_insertNewR (A : List (List Char)) :
    ∀ R : List (List Char),
      A.foldl insertNewR R =
        R ++ (dedupFirst A).filter (fun p => p ∉ R) := by
  induction A with
  | nil => intro R; simp [dedupFirst]
  | cons x A' ih =>
    intro R
    by_cases hx : x ∈ R
    · have hstep : insertNewR R x = R := by simp [insertNewR, hx]
      rw [List.foldl_cons, hstep, ih R]
      congr 1
      rw [show dedupFirst (x :: A') = x :: (dedupFirst A').filter (fun y => y ≠ x)
        from rfl]
      rw [List.filter_cons]
      have hxf : (decide (x ∉ R)) = false := by simp [hx]
      rw [hxf]
      simp only [Bool.false_eq_true, if_false]
      rw [List.filter_filter]
      apply List.filter_congr
      intro y _
      by_cases hyx : y = x
      · subst hyx
        simp [hx]
      · simp [hyx]
    · have hstep : insertNewR R x = R ++ [x] := by simp [insertNewR, hx]
      rw [List.foldl_cons, hstep, ih (R ++ [x])]
      rw [show dedupFirst (x :: A') = x :: (dedupFirst A').filter (fun y => y ≠ x)
        from rfl]
      rw [List.filter_cons]
      have hxt : (decide (x ∉ R)) = true := by simp [hx]
      rw [hxt]
      simp only [if_true, List.append_assoc, List.cons_append, List.nil_append]
      congr 1
      congr 1
      rw [List.filter_filter]
      apply List.filter_congr
      intro y _
      by_cases hyx : y = x
      · subst hyx
        simp
      · simp [hyx, List.mem_append]

theorem initial_flags (dev : Device) (fb : Option (List Char)) :
    (HarnessContext.initial dev fb).ready_flags = [] ∧
    (HarnessContext.initial dev fb).done_flags = [] := by
  unfold HarnessContext.initial
  cases fb with
  | none => exact ⟨rfl, rfl⟩
  | some fp =>
    dsimp only
    split_ifs with h
    · unfold HarnessContext._maybe_set_package
      cases HarnessContext._normalize_package dev fp with
      | some n => exact ⟨rfl, rfl⟩
      | none =>
        dsimp only
        split_ifs <;> exact ⟨rfl, rfl⟩
    · exact ⟨rfl, rfl⟩

theorem foldl_doneStep (ls : List (List Char)) :
    ∀ d : List (List Char),
      ls.foldl
          (fun d l =>
            match extractDoneFlags l with
            | some nd => nd
            | none => d) d =
        ((ls.filterMap extractDoneFlags).getLast?).getD d := by
  induction ls with
  | nil => intro d; rfl
  | cons l rest ih =>
    intro d
    cases hx : extractDoneFlags l with
    | none =>
      simp only [List.foldl_cons, hx]
      rw [ih d]
      simp [List.filterMap_cons, hx]
    | some nd =>
      simp only [List.foldl_cons, hx]
      rw [ih nd]
      simp only [List.filterMap_cons, hx]
      cases hr : rest.filterMap extractDoneFlags with
      | nil => simp
      | cons a as =>
        have hsome : (a :: as).getLast? =
            some ((a :: as).getLast (by simp)) :=
          List.getLast?_eq_getLast_of_ne_nil (by simp)
        rw [List.getLast?_cons_cons, hsome]
        rfl

/-- C5: over any line sequence observed by one fresh session, ready-flag
collection yields exactly the announced paths, deduplicated in first-seen
order (hence without duplicates), while each done-flag announcement
replaces the whole list, so the final list is the last announcement (empty
if none was ever made). -/
theorem ready_and_done_flag_collection (dev : Device)
    (fb : Option (List Char)) (lines : List (List Char)) :
    (collectFold (HarnessContext.initial dev fb) lines).ready_flags =
      dedupFirst (lines.filterMap extractReadyPath) ∧
    (collectFold (HarnessContext.initial dev fb) lines).ready_flags.Nodup ∧
    (collectFold (HarnessContext.initial dev fb) lines).done_flags =
      ((lines.filterMap extractDoneFlags).getLast?).getD [] := by
  obtain ⟨hr0, hd0⟩ := initial_flags dev fb
  obtain ⟨hr, hd⟩ := collectFold_components lines (HarnessContext.initial dev fb)
  have hready : (collectFold (HarnessContext.initial dev fb) lines).ready_flags =
      dedupFirst (lines.filterMap extractReadyPath) := by
    rw [hr, hr0, foldl_insertNewR]
    simp
  refine ⟨hready, ?_, ?_⟩
  · rw [hready]
    exact nodup_dedupFirst _
  · rw [hd, hd0]
    exact foldl_doneStep lines []

/-! ### The phase timeline summary (`maybe_emit_phase_guidance`) -/

/-- Python truthiness of a JSON value. -/
def pyTruthy : Json → Bool
  | .null => false
  | .bool b => b
  | .int n => n ≠ 0
  | .float z _ => !z
  | .str s => !s.isEmpty
  | .arr l => !l.isEmpty
  | .obj l => !l.isEmpty

/-- Truthiness of an optional JSON field value (`None` is falsy). -/
def jsonOptTruthy : Option Json → Bool
  | some v => pyTruthy v
  | none => false

/-- Truthiness of an optional integer field (`None` and `0` are falsy). -/
def intOptTruthy : Option Int → Bool
  | some n => n ≠ 0
  | none => false

/-- Python string comparison `s < t` (code-point lexicographic). -/
def strLt : List Char → List Char → Bool
  | [], [] => false
  | [], _ :: _ => true
  | _ :: _, [] => false
  | a :: as, b :: bs => if a < b then true else if a = b then strLt as bs else false

/-- Python tuple comparison `(c₁, o₁, a₁) <= (c₂, o₂, a₂)` used by
`sorted(..., key=lambda item: (component, operation, attempt))`. -/
def phaseKeyLe (k1 k2 : PhaseKey) : Bool :=
  strLt k1.1 k2.1 ||
    (k1.1 = k2.1 &&
      (strLt k1.2.1 k2.2.1 ||
        (k1.2.1 = k2.2.1 && k1.2.2 ≤ k2.2.2)))

/-- The sort relation on grouped entries. -/
def entryRel (e1 e2 : PhaseKey × List HarnessPhaseEvent) : Prop :=
  phaseKeyLe e1.1 e2.1 = true

instance : DecidableRel entryRel := fun a b =>
  inferInstanceAs (Decidable (phaseKeyLe a.1 b.1 = true))

/-- One printed group of the `Harness phase timeline:` summary: the fields
reported for a `(component, operation, attempt)` attempt. -/
structure PhaseGroupSummary where
  component : List Char
  operation : List Char
  attempt : Int
  phases : List (List Char)
  context : List (List Char × List Char)
  checkpoint : Option Json
  detail : Option Json
  errorInfo : Option (Option Json × Option Json)
  next_attempt : Option Int

/-- Placeholder event; group event lists are non-empty by construction, so
it is never selected. -/
def defaultPhaseEvent : HarnessPhaseEvent :=
  { type := [], component := [], operation := [], attempt := 0
    timestamp_ms := none, context := [], checkpoint := none, detail := none
    next_attempt := none, error_type := none, error_message := none }

/-- The per-group body of `maybe_emit_phase_guidance`: phase sequence,
last-seen truthy context / checkpoint / detail / error, and the
next-attempt number when the final event is a truthy-`next_attempt`
retry. -/
def summarizeGroup (k : PhaseKey) (events : List HarnessPhaseEvent) :
    PhaseGroupSummary :=
  let final := events.getLastD defaultPhaseEvent
  let context_event :=
    (events.reverse.find? (fun e => !e.context.isEmpty)).getD final
  { component := k.1
    operation := k.2.1
    attempt := k.2.2
    phases := events.map (fun e => e.type)
    context := context_event.context
    checkpoint :=
      match events.reverse.find? (fun e => jsonOptTruthy e.checkpoint) with
      | some e => e.checkpoint
      | none => none
    detail :=
      match events.reverse.find? (fun e => jsonOptTruthy e.detail) with
      | some e => e.detail
      | none => none
    errorInfo :=
      match events.reverse.find?
          (fun e => jsonOptTruthy e.error_type || jsonOptTruthy e.error_message) with
      | some e => some (e.error_type, e.error_message)
      | none => none
    next_attempt :=
      if final.type = pyStr "retry" ∧ intOptTruthy final.next_attempt = true then
        final.next_attempt
      else none }

/-- `HarnessContext.maybe_emit_phase_guidance`: one-shot; prints one group
per `(component, operation, attempt)` key of the grouped events, sorted by
key.  The returned summary list models the printed timeline (`none` when
nothing is printed). -/
def HarnessContext.maybe_emit_phase_guidance (c : HarnessContext) :
    HarnessContext × Option (List PhaseGroupSummary) :=
  if c.phase_guidance_emitted = true ∨ c.phase_attempt_events.isEmpty = true then
    (c, none)
  else
    ({ c with phase_guidance_emitted := true },
     some ((List.insertionSort entryRel c.phase_attempt_events).map
       (fun e => summarizeGroup e.1 e.2)))

/-! ### C7: one-shot guidance messages -/

/-- The three one-shot guidance message classes. -/
inductive GuidanceKind where
  | crash
  | missing
  | phase
deriving DecidableEq

/-- Operations a failure path can perform on one session: observe a line, or
invoke one of the guidance emitters (possibly repeatedly). -/
inductive SessionOp where
  | observe (line : List Char)
  | emitCrash
  | emitMissing
  | emitPhase

/-- Apply one operation; the list collects the guidance messages printed by
that operation. -/
def applyOp (j : List Char → Option Json) (c : HarnessContext) :
    SessionOp → HarnessContext × List GuidanceKind
  | .observe l => ((HarnessContext.observe_line j c l).1, [])
  | .emitCrash =>
    let r := HarnessContext.maybe_emit_system_crash_guidance c
    (r.1, if r.2 then [.crash] else [])
  | .emitMissing =>
    let r := HarnessContext.maybe_emit_missing_instrumentation_guidance c
    (r.1, if r.2 then [.missing] else [])
  | .emitPhase =>
    let r := HarnessContext.maybe_emit_phase_guidance c
    (r.1, if r.2.isSome then [.phase] else [])

/-- Run a sequence of operations, concatenating the printed guidance. -/
def runOps (j : List Char → Option Json) :
    HarnessContext → List SessionOp → HarnessContext × List GuidanceKind
  | c, [] => (c, [])
  | c, op :: rest =>
    let r := applyOp j c op
    let rr := runOps j r.1 rest
    (rr.1, r.2 ++ rr.2)

theorem runOps_count_zero (j : List Char → Option Json)
    (f : HarnessContext → Bool) (g : GuidanceKind)
    (H1 : ∀ c op, f c = true → f (applyOp j c op).1 = true)
    (H2 : ∀ c op, f c = true → (applyOp j c op).2.count g = 0) :
    ∀ (ops : List SessionOp) (c : HarnessContext), f c = true →
      ((runOps j c ops).2.count g) = 0 := by
  intro ops
  induction ops with
  | nil => intro c _; rfl
  | cons op rest ih =>
    intro c hc
    unfold runOps
    dsimp only
    rw [List.count_append, H2 c op hc, ih _ (H1 c op hc)]

theorem runOps_count_le_one (j : List Char → Option Json)
    (f : HarnessContext → Bool) (g : GuidanceKind)
    (H1 : ∀ c op, f c = true → f (applyOp j c op).1 = true)
    (H2 : ∀ c op, f c = true → (applyOp j c op).2.count g = 0)
    (H3 : ∀ c op, (applyOp j c op).2.count g ≤ 1)
    (H4 : ∀ c op, 0 < (applyOp j c op).2.count g →
      f (applyOp j c op).1 = true) :
    ∀ (ops : List SessionOp) (c : HarnessContext),
      ((runOps j c ops).2.count g) ≤ 1 := by
  intro ops
  induction ops with
  | nil => intro c; simp [runOps]
  | cons op rest ih =>
    intro c
    unfold runOps
    dsimp only
    rw [List.count_append]
    by_cases h0 : 0 < (applyOp j c op).2.count g
    · have hz := runOps_count_zero j f g H1 H2 rest _ (H4 c op h0)
      have := H3 c op
      omega
    · have : (applyOp j c op).2.count g = 0 := by omega
      rw [this]
      simpa using ih (applyOp j c op).1

theorem emitCrash_cases (c : HarnessContext) :
    (HarnessContext.maybe_emit_system_crash_guidance c = (c, false)) ∨
    (c.system_crash_guidance_emitted = false ∧
      HarnessContext.maybe_emit_system_crash_guidance c =
        ({ c with system_crash_guidance_emitted := true }, true)) := by
  unfold HarnessContext.maybe_emit_system_crash_guidance
  by_cases h : c.system_crash_detected = false ∨
      c.system_crash_guidance_emitted = true
  · left; rw [if_pos h]
  · right
    push_neg at h
    refine ⟨by simpa using h.2, ?_⟩
    rw [if_neg]
    push_neg
    exact h

theorem emitMissing_cases (c : HarnessContext) :
    (HarnessContext.maybe_emit_missing_instrumentation_guidance c = (c, false)) ∨
    (c.missing_instrumentation_guidance_emitted = false ∧
      HarnessContext.maybe_emit_missing_instrumentation_guidance c =
        ({ c with missing_instrumentation_guidance_emitted := true }, true)) := by
  unfold HarnessContext.maybe_emit_missing_instrumentation_guidance
  by_cases h : c.missing_instrumentation_detected = false ∨
      c.missing_instrumentation_guidance_emitted = true
  · left; rw [if_pos h]
  · right
    push_neg at h
    refine ⟨by simpa using h.2, ?_⟩
    rw [if_neg]
    push_neg
    exact h

theorem emitPhase_cases (c : HarnessContext) :
    (HarnessContext.maybe_emit_phase_guidance c = (c, none)) ∨
    (c.phase_guidance_emitted = false ∧
      ∃ s, HarnessContext.maybe_emit_phase_guidance c =
        ({ c with phase_guidance_emitted := true }, some s)) := by
  unfold HarnessContext.maybe_emit_phase_guidance
  by_cases h : c.phase_guidance_emitted = true ∨
      c.phase_attempt_events.isEmpty = true
  · left; rw [if_pos h]
  · right
    push_neg at h
    rw [if_neg (by push_neg; exact h)]
    exact ⟨by simpa using h.1, _, rfl⟩

theorem applyOp_emitCrash_eq (j : List Char → Option Json) (c : HarnessContext) :
    (applyOp j c .emitCrash = (c, [])) ∨
    (c.system_crash_guidance_emitted = false ∧
      applyOp j c .emitCrash =
        ({ c with system_crash_guidance_emitted := true },
         [GuidanceKind.crash])) := by
  unfold applyOp
  dsimp only
  rcases emitCrash_cases c with hE | ⟨hf, hE⟩
  · left; rw [hE]; rfl
  · right; exact ⟨hf, by rw [hE]; rfl⟩

theorem applyOp_emitMissing_eq (j : List Char → Option Json)
    (c : HarnessContext) :
    (applyOp j c .emitMissing = (c, [])) ∨
    (c.missing_instrumentation_guidance_emitted = false ∧
      applyOp j c .emitMissing =
        ({ c with missing_instrumentation_guidance_emitted := true },
         [GuidanceKind.missing])) := by
  unfold applyOp
  dsimp only
  rcases emitMissing_cases c with hE | ⟨hf, hE⟩
  · left; rw [hE]; rfl
  · right; exact ⟨hf, by rw [hE]; rfl⟩

theorem applyOp_emitPhase_eq (j : List Char → Option Json) (c : HarnessContext) :
    (applyOp j c .emitPhase = (c, [])) ∨
    (c.phase_guidance_emitted = false ∧
      applyOp j c .emitPhase =
        ({ c with phase_guidance_emitted := true }, [GuidanceKind.phase])) := by
  unfold applyOp
  dsimp only
  rcases emitPhase_cases c with hE | ⟨hf, s, hE⟩
  · left; rw [hE]; rfl
  · right; exact ⟨hf, by rw [hE]; rfl⟩

theorem applyOp_observe_eq (j : List Char → Option Json) (c : HarnessContext)
    (l : List Char) :
    applyOp j c (.observe l) = ((HarnessContext.observe_line j c l).1, []) := rfl

theorem crash_H1 (j : List Char → Option Json) :
    ∀ (c : HarnessContext) (op : SessionOp),
      c.system_crash_guidance_emitted = true →
      (applyOp j c op).1.system_crash_guidance_emitted = true := by
  intro c op hc
  cases op with
  | observe l =>
    rw [applyOp_observe_eq]
    rw [(observe_line_untouched j c l).2.1]
    exact hc
  | emitCrash =>
    rcases applyOp_emitCrash_eq j c with hE | ⟨hf, hE⟩
    · rw [hE]; exact hc
    · rw [hf] at hc; exact absurd hc (by simp)
  | emitMissing =>
    rcases applyOp_emitMissing_eq j c with hE | ⟨hf, hE⟩ <;> rw [hE] <;> exact hc
  | emitPhase =>
    rcases applyOp_emitPhase_eq j c with hE | ⟨hf, hE⟩ <;> rw [hE] <;> exact hc

theorem crash_H2 (j : List Char → Option Json) :
    ∀ (c : HarnessContext) (op : SessionOp),
      c.system_crash_guidance_emitted = true →
      (applyOp j c op).2.count GuidanceKind.crash = 0 := by
  intro c op hc
  cases op with
  | observe l => rw [applyOp_observe_eq]; rfl
  | emitCrash =>
    rcases applyOp_emitCrash_eq j c with hE | ⟨hf, hE⟩
    · rw [hE]; rfl
    · rw [hf] at hc; exact absurd hc (by simp)
  | emitMissing =>
    rcases applyOp_emitMissing_eq j c with hE | ⟨hf, hE⟩ <;> rw [hE] <;> rfl
  | emitPhase =>
    rcases applyOp_emitPhase_eq j c with hE | ⟨hf, hE⟩ <;> rw [hE] <;> rfl

theorem crash_H3 (j : List Char → Option Json) :
    ∀ (c : HarnessContext) (op : SessionOp),
      (applyOp j c op).2.count GuidanceKind.crash ≤ 1 := by
  intro c op
  cases op with
  | observe l => rw [applyOp_observe_eq]; simp
  | emitCrash =>
    rcases applyOp_emitCrash_eq j c with hE | ⟨hf, hE⟩ <;> rw [hE] <;> simp
  | emitMissing =>
    rcases applyOp_emitMissing_eq j c with hE | ⟨hf, hE⟩ <;> rw [hE] <;> simp
  | emitPhase =>
    rcases applyOp_emitPhase_eq j c with hE | ⟨hf, hE⟩ <;> rw [hE] <;> simp

theorem crash_H4 (j : List Char → Option Json) :
    ∀ (c : HarnessContext) (op : SessionOp),
      0 < (applyOp j c op).2.count GuidanceKind.crash →
      (applyOp j c op).1.system_crash_guidance_emitted = true := by
  intro c op h0
  cases op with
  | observe l => rw [applyOp_observe_eq] at h0; simp at h0
  | emitCrash =>
    rcases applyOp_emitCrash_eq j c with hE | ⟨hf, hE⟩
    · rw [hE] at h0; simp at h0
    · rw [hE]
  | emitMissing =>
    rcases applyOp_emitMissing_eq j c with hE | ⟨hf, hE⟩ <;>
      rw [hE] at h0 <;> simp [List.count_singleton] at h0
  | emitPhase =>
    rcases applyOp_emitPhase_eq j c with hE | ⟨hf, hE⟩ <;>
      rw [hE] at h0 <;> simp [List.count_singleton] at h0

theorem missing_H1 (j : List Char → Option Json) :
    ∀ (c : HarnessContext) (op : SessionOp),
      c.missing_instrumentation_guidance_emitted = true →
      (applyOp j c op).1.missing_instrumentation_guidance_emitted = true := by
  intro c op hc
  cases op with
  | observe l =>
    rw [applyOp_observe_eq]
    rw [(observe_line_untouched j c l).2.2.1]
    exact hc
  | emitCrash =>
    rcases applyOp_emitCrash_eq j c with hE | ⟨hf, hE⟩ <;> rw [hE] <;> exact hc
  | emitMissing =>
    rcases applyOp_emitMissing_eq j c with hE | ⟨hf, hE⟩
    · rw [hE]; exact hc
    · rw [hf] at hc; exact absurd hc (by simp)
  | emitPhase =>
    rcases applyOp_emitPhase_eq j c with hE | ⟨hf, hE⟩ <;> rw [hE] <;> exact hc

theorem missing_H2 (j : List Char → Option Json) :
    ∀ (c : HarnessContext) (op : SessionOp),
      c.missing_instrumentation_guidance_emitted = true →
      (applyOp j c op).2.count GuidanceKind.missing = 0 := by
  intro c op hc
  cases op with
  | observe l => rw [applyOp_observe_eq]; rfl
  | emitCrash =>
    rcases applyOp_emitCrash_eq j c with hE | ⟨hf, hE⟩ <;> rw [hE] <;> rfl
  | emitMissing =>
    rcases applyOp_emitMissing_eq j c with hE | ⟨hf, hE⟩
    · rw [hE]; rfl
    · rw [hf] at hc; exact absurd hc (by simp)
  | emitPhase =>
    rcases applyOp_emitPhase_eq j c with hE | ⟨hf, hE⟩ <;> rw [hE] <;> rfl

theorem missing_H3 (j : List Char → Option Json) :
    ∀ (c : HarnessContext) (op : SessionOp),
      (applyOp j c op).2.count GuidanceKind.missing ≤ 1 := by
  intro c op
  cases op with
  | observe l => rw [applyOp_observe_eq]; simp
  | emitCrash =>
    rcases applyOp_emitCrash_eq j c with hE | ⟨hf, hE⟩ <;> rw [hE] <;> simp
  | emitMissing =>
    rcases applyOp_emitMissing_eq j c with hE | ⟨hf, hE⟩ <;> rw [hE] <;> simp
  | emitPhase =>
    rcases applyOp_emitPhase_eq j c with hE | ⟨hf, hE⟩ <;> rw [hE] <;> simp

theorem missing_H4 (j : List Char → Option Json) :
    ∀ (c : HarnessContext) (op : SessionOp),
      0 < (applyOp j c op).2.count GuidanceKind.missing →
      (applyOp j c op).1.missing_instrumentation_guidance_emitted = true := by
  intro c op h0
  cases op with
  | observe l => rw [applyOp_observe_eq] at h0; simp at h0
  | emitCrash =>
    rcases applyOp_emitCrash_eq j c with hE | ⟨hf, hE⟩ <;>
      rw [hE] at h0 <;> simp [List.count_singleton] at h0
  | emitMissing =>
    rcases applyOp_emitMissing_eq j c with hE | ⟨hf, hE⟩
    · rw [hE] at h0; simp at h0
    · rw [hE]
  | emitPhase =>
    rcases applyOp_emitPhase_eq j c with hE | ⟨hf, hE⟩ <;>
      rw [hE] at h0 <;> simp [List.count_singleton] at h0

theorem phase_H1 (j : List Char → Option Json) :
    ∀ (c : HarnessContext) (op : SessionOp),
      c.phase_guidance_emitted = true →
      (applyOp j c op).1.phase_guidance_emitted = true := by
  intro c op hc
  cases op with
  | observe l =>
    rw [applyOp_observe_eq]
    rw [(observe_line_untouched j c l).2.2.2]
    exact hc
  | emitCrash =>
    rcases applyOp_emitCrash_eq j c with hE | ⟨hf, hE⟩ <;> rw [hE] <;> exact hc
  | emitMissing =>
    rcases applyOp_emitMissing_eq j c with hE | ⟨hf, hE⟩ <;> rw [hE] <;> exact hc
  | emitPhase =>
    rcases applyOp_emitPhase_eq j c with hE | ⟨hf, hE⟩
    · rw [hE]; exact hc
    · rw [hf] at hc; exact absurd hc (by simp)

theorem phase_H2 (j : List Char → Option Json) :
    ∀ (c : HarnessContext) (op : SessionOp),
      c.phase_guidance_emitted = true →
      (applyOp j c op).2.count GuidanceKind.phase = 0 := by
  intro c op hc
  cases op with
  | observe l => rw [applyOp_observe_eq]; rfl
  | emitCrash =>
    rcases applyOp_emitCrash_eq j c with hE | ⟨hf, hE⟩ <;> rw [hE] <;> rfl
  | emitMissing =>
    rcases applyOp_emitMissing_eq j c with hE | ⟨hf, hE⟩ <;> rw [hE] <;> rfl
  | emitPhase =>
    rcases applyOp_emitPhase_eq j c with hE | ⟨hf, hE⟩
    · rw [hE]; rfl
    · rw [hf] at hc; exact absurd hc (by simp)

theorem phase_H3 (j : List Char → Option Json) :
    ∀ (c : HarnessContext) (op : SessionOp),
      (applyOp j c op).2.count GuidanceKind.phase ≤ 1 := by
  intro c op
  cases op with
  | observe l => rw [applyOp_observe_eq]; simp
  | emitCrash =>
    rcases applyOp_emitCrash_eq j c with hE | ⟨hf, hE⟩ <;> rw [hE] <;> simp
  | emitMissing =>
    rcases applyOp_emitMissing_eq j c with hE | ⟨hf, hE⟩ <;> rw [hE] <;> simp
  | emitPhase =>
    rcases applyOp_emitPhase_eq j c with hE | ⟨hf, hE⟩ <;> rw [hE] <;> simp

theorem phase_H4 (j : List Char → Option Json) :
    ∀ (c : HarnessContext) (op : SessionOp),
      0 < (applyOp j c op).2.count GuidanceKind.phase →
      (applyOp j c op).1.phase_guidance_emitted = true := by
  intro c op h0
  cases op with
  | observe l => rw [applyOp_observe_eq] at h0; simp at h0
  | emitCrash =>
    rcases applyOp_emitCrash_eq j c with hE | ⟨hf, hE⟩ <;>
      rw [hE] at h0 <;> simp [List.count_singleton] at h0
  | emitMissing =>
    rcases applyOp_emitMissing_eq j c with hE | ⟨hf, hE⟩ <;>
      rw [hE] at h0 <;> simp [List.count_singleton] at h0
  | emitPhase =>
    rcases applyOp_emitPhase_eq j c with hE | ⟨hf, hE⟩
    · rw [hE] at h0; simp at h0
    · rw [hE]

/-- C7: over any interleaving of observed lines and guidance-emitter calls
on one session, each one-shot guidance message (system-crash remediation,
missing-instrumentation install command, phase timeline) is printed at most
once, even if its trigger recurs in the stream or the emitter is invoked
repeatedly. -/
theorem one_shot_guidance_messages (j : List Char → Option Json)
    (dev : Device) (fb : Option (List Char)) (ops : List SessionOp) :
    ((runOps j (HarnessContext.initial dev fb) ops).2.count
        GuidanceKind.crash ≤ 1) ∧
    ((runOps j (HarnessContext.initial dev fb) ops).2.count
        GuidanceKind.missing ≤ 1) ∧
    ((runOps j (HarnessContext.initial dev fb) ops).2.count
        GuidanceKind.phase ≤ 1) :=
  ⟨runOps_count_le_one j (fun c => c.system_crash_guidance_emitted) _
      (crash_H1 j) (crash_H2 j) (crash_H3 j) (crash_H4 j) ops _,
   runOps_count_le_one j (fun c => c.missing_instrumentation_guidance_emitted) _
      (missing_H1 j) (missing_H2 j) (missing_H3 j) (missing_H4 j) ops _,
   runOps_count_le_one j (fun c => c.phase_guidance_emitted) _
      (phase_H1 j) (phase_H2 j) (phase_H3 j) (phase_H4 j) ops _⟩

/-! ### Component resolution (`resolve_instrumentation_component`) -/

/-- `_extract_instrumentation_components`: the `instrumentation:` lines of a
`pm list instrumentation` output, first space-separated token, stripped and
non-empty. -/
def _extract_instrumentation_components (output : List Char) :
    List (List Char) :=
  (splitLinesPy output).filterMap (fun line =>
    let stripped := pyStrip line
    if (pyStr "instrumentation:").isPrefixOf stripped then
      let candidate :=
        pyStrip (takeBeforeFirst ' '
          (stripped.drop (pyStr "instrumentation:").length))
      if candidate ≠ [] then some candidate else none
    else none)

/-- Unanchored-at-start, `$`-anchored search of a wildcard regex
(`re.compile(escaped + "$").search`): some suffix of `s` matches fully. -/
def anySuffixGlob (p : List Char) : List Char → Bool
  | [] => globMatch p []
  | c :: t => globMatch p (c :: t) || anySuffixGlob p t

/-- `_resolve_sanitized_instrumentation_component`. -/
def _resolve_sanitized_instrumentation_component (dev : Device)
    (pattern : List Char) : Option (List Char) :=
  match dev.pmListInstrumentation none with
  | none => none
  | some output =>
    let matches_ := (splitLinesPy output).filterMap (fun line =>
      let stripped := pyStrip line
      if (pyStr "instrumentation:").isPrefixOf stripped then
        let component :=
          pyStrip (takeBeforeFirst ' '
            (stripped.drop (pyStr "instrumentation:").length))
        if component ≠ [] ∧ globMatch pattern component then some component
        else none
      else none)
    match matches_ with
    | [] => none
    | first :: rest =>
      if rest = [] then some first
      else
        let suffix :=
          if '/' ∈ pattern then dropAfterFirst '/' pattern else pattern
        if suffix ≠ [] then
          match (first :: rest).find? (fun m => anySuffixGlob suffix m) with
          | some m => some m
          | none => some first
        else some first

/-- `_normalize_instrumentation_component`. -/
def _normalize_instrumentation_component (dev : Device) (component : List Char) :
    List Char :=
  let package :=
    if '/' ∈ component then takeBeforeFirst '/' component else component
  let separator := '/' ∈ component
  let runner := if separator then dropAfterFirst '/' component else []
  if package = [] then component
  else
    match normalize_package_name dev package with
    | some np =>
      if np ≠ package then
        if separator then np ++ '/' :: runner else np
      else if '*' ∈ package then
        match _resolve_sanitized_instrumentation_component dev component with
        | some resolved => resolved
        | none => component
      else component
    | none =>
      if '*' ∈ package then
        match _resolve_sanitized_instrumentation_component dev component with
        | some resolved => resolved
        | none => component
      else component

/-- `_prefer_requested_instrumentation_component`. -/
def _prefer_requested_instrumentation_component (dev : Device)
    (requested resolved : List Char) : List Char :=
  if resolved = [] then resolved
  else
    let resolved_package := takeBeforeFirst '/' resolved
    if packagePatternMatch resolved_package ∧ '*' ∉ resolved_package then resolved
    else
      let requested' := pyStrip requested
      if requested' = [] then resolved
      else
        let requested_normalized :=
          _normalize_instrumentation_component dev requested'
        let requested_package := takeBeforeFirst '/' requested_normalized
        if requested_package = [] ∨ '*' ∈ requested_package then resolved
        else requested_normalized

/-- The regex compiled by `_compile_wildcard_regex`, represented by the
pattern text it was built from; `none` when the pattern holds no `*` (the
early return) or — vacuously here — when compilation fails.  The source
calls `.replace` with the RAW target string of the three characters
backslash, backslash, star; `re.escape` output only ever contains single
backslashes, so that target never occurs, the replacement is a no-op, and
the compiled regex is the fully escaped, anchored pattern: it matches
exactly the literal pattern text (stars included), never acting as a
wildcard. -/
def _compile_wildcard_regex (pattern : List Char) : Option (List Char) :=
  if '*' ∈ pattern then some pattern else none

/-- Anchored `.match` against a regex compiled by `_compile_wildcard_regex`:
by the no-op replacement above, the candidate matches exactly when it is the
literal pattern text. -/
def wildcardRegexMatch (pattern s : List Char) : Bool := s = pattern

/-- Match against the `expected_literal` / `expected_regex` of the exact
phase of `_resolve_instrumentation_component_once`.  Both reduce to literal
comparison with `package/runner`, since `expected_regex` comes from
`_compile_wildcard_regex`. -/
def expectedMatch (expLit expRegex : Option (List Char))
    (component : List Char) : Bool :=
  (match expLit with
   | some lit => component = lit
   | none => false) ||
  (match expRegex with
   | some pat => wildcardRegexMatch pat component
   | none => false)

/-- Match of the package-prefix phase: the package must match its compiled
regex (when one exists, i.e. the pattern holds a `*` — then, by the no-op
replacement, only the literal pattern text matches) or compare equal
literally, and a nonempty requested runner likewise; an empty requested
runner accepts any component of the package. -/
def packageRunnerMatch (package runner : List Char)
    (pkgRegex runRegex : Option (List Char)) (component : List Char) : Bool :=
  let component_package := takeBeforeFirst '/' component
  let component_runner :=
    if '/' ∈ component then dropAfterFirst '/' component else []
  (match pkgRegex with
   | some pat => wildcardRegexMatch pat component_package
   | none => component_package = package) &&
  (if runner = [] then true
   else
     match runRegex with
     | some pat => wildcardRegexMatch pat component_runner
     | none => component_runner = runner)

/-- Query loop of `_resolve_instrumentation_component_once`, carrying the
first-seen fallback component. -/
def resolveOnceLoop (dev : Device) (package runner : List Char)
    (pkgRegex runRegex expLit expRegex : Option (List Char)) :
    List (Option (List Char)) → Option (List Char) → Option (List Char)
  | [], fallback => fallback
  | q :: qs, fallback =>
    match dev.pmListInstrumentation q with
    | none =>
      resolveOnceLoop dev package runner pkgRegex runRegex expLit expRegex
        qs fallback
    | some output =>
      let components := _extract_instrumentation_components output
      if components.isEmpty then
        resolveOnceLoop dev package runner pkgRegex runRegex expLit
          expRegex qs fallback
      else
        match components.find? (expectedMatch expLit expRegex) with
        | some comp => some comp
        | none =>
          match
            (if package ≠ [] then
              components.find?
                (packageRunnerMatch package runner pkgRegex runRegex)
            else none) with
          | some comp => some comp
          | none =>
            let fallback' :=
              match fallback with
              | some f => some f
              | none => components.head?
            resolveOnceLoop dev package runner pkgRegex runRegex expLit
              expRegex qs fallback'

/-- `_resolve_instrumentation_component_once` (the
"requested X not installed; using Y" notice and the missing-instrumentation
guidance are prints without state effects).  The package, runner, and
expected regexes all come from `_compile_wildcard_regex`, so each matches
only its own literal pattern text. -/
def _resolve_instrumentation_component_once (dev : Device)
    (package runner : List Char) (queries : List (Option (List Char))) :
    Option (List Char) :=
  let pkgRegex := if package ≠ [] then _compile_wildcard_regex package else none
  let runRegex := if runner ≠ [] then _compile_wildcard_regex runner else none
  let expLit :=
    if package ≠ [] ∧ runner ≠ [] ∧ pkgRegex = none ∧ runRegex = none then
      some (package ++ '/' :: runner)
    else none
  let expRegex :=
    if package ≠ [] ∧ runner ≠ [] ∧ ¬(pkgRegex = none ∧ runRegex = none) then
      _compile_wildcard_regex (package ++ '/' :: runner)
    else none
  resolveOnceLoop dev package runner pkgRegex runRegex expLit expRegex
    queries none

/-- `resolve_instrumentation_component`.  `dev1` serves the first resolution
round, `dev2` the round after the Gradle auto-install (whose own result only
affects printed messages). -/
def resolve_instrumentation_component (dev1 dev2 : Device)
    (skip_auto_install : Bool) (instrumentation_arg : List Char) :
    Option (List Char) :=
  let requested := pyStrip instrumentation_arg
  let package0 :=
    if '/' ∈ requested then takeBeforeFirst '/' requested else requested
  let runner0 :=
    if '/' ∈ requested then dropAfterFirst '/' requested else []
  let package := pyStrip package0
  let runner := pyStrip runner0
  let queries := (if package ≠ [] then [some package] else []) ++ [none]
  match _resolve_instrumentation_component_once dev1 package runner queries with
  | some component =>
    some (_prefer_requested_instrumentation_component dev1 requested
      (_normalize_instrumentation_component dev1 component))
  | none =>
    if skip_auto_install then none
    else
      match _resolve_instrumentation_component_once dev2 package runner queries with
      | some component =>
        some (_prefer_requested_instrumentation_component dev2 requested
          (_normalize_instrumentation_component dev2 component))
      | none => none

/-- The C2 device: `pm list instrumentation` reports exactly
`pkg.a/Runner1` and `pkg.b/Runner2` for every query. -/
def c2Device : Device :=
  ⟨none,
   fun _ => some (pyStr
     "instrumentation:pkg.a/Runner1 (target=pkg.a)\ninstrumentation:pkg.b/Runner2 (target=pkg.b)")⟩

/-- C2: with exactly `pkg.a/Runner1` and `pkg.b/Runner2` installed,
resolution of `pkg.*/Runner2` does NOT return `pkg.b/Runner2`.  The replace
target of `_compile_wildcard_regex` is the three-character string
backslash-backslash-star, which never occurs in `re.escape` output, so the
replacement is a no-op and every compiled regex matches only its literal
pattern text: no installed component matches `pkg.*` or `pkg.*/Runner2`,
and the resolver returns the first-seen fallback component `pkg.a/Runner1`
instead. -/
theorem resolve_wildcard_component_falls_back :
    resolve_instrumentation_component c2Device c2Device false
      (pyStr "pkg.*/Runner2") = some (pyStr "pkg.a/Runner1") ∧
    resolve_instrumentation_component c2Device c2Device false
      (pyStr "pkg.*/Runner2") ≠ some (pyStr "pkg.b/Runner2") := by
  refine ⟨by decide, by decide⟩

/-! ### `main`: retry budgets and exit codes -/

/-- ASCII lowercasing (`str.lower` on the ASCII env values involved). -/
def pyLower (s : List Char) : List Char :=
  s.map (fun c =>
    if 65 ≤ c.toNat ∧ c.toNat ≤ 90 then Char.ofNat (c.toNat + 32) else c)

/-- The environment variables read by `_virtualization_unavailable`. -/
structure Env where
  require_connected_device : Option (List Char)
  nested_virtualization_disabled : Option (List Char)
  acceleration_preference : Option (List Char)

/-- `_parse_optional_bool`. -/
def _parse_optional_bool (value : Option (List Char)) : Option Bool :=
  match value with
  | none => none
  | some s =>
    let normalized := pyLower (pyStrip s)
    if normalized = [] then none
    else if normalized = pyStr "1" ∨ normalized = pyStr "true" ∨
        normalized = pyStr "t" ∨ normalized = pyStr "yes" ∨
        normalized = pyStr "y" ∨ normalized = pyStr "on" then some true
    else if normalized = pyStr "0" ∨ normalized = pyStr "false" ∨
        normalized = pyStr "f" ∨ normalized = pyStr "no" ∨
        normalized = pyStr "n" ∨ normalized = pyStr "off" then some false
    else none

/-- `_virtualization_unavailable`. -/
def _virtualization_unavailable (env : Env) : Bool :=
  match _parse_optional_bool env.require_connected_device with
  | some true => false
  | _ =>
    match _parse_optional_bool env.nested_virtualization_disabled with
    | some true => true
    | _ =>
      let pref := pyStrip (env.acceleration_preference.getD [])
      if pyLower pref = pyStr "software" ∨ pyLower pref = pyStr "none" then true
      else false

/-- `HarnessContext.add_candidate_package`. -/
def HarnessContext.add_candidate_package (dev : Device) (c : HarnessContext)
    (candidate : List Char) : HarnessContext :=
  match HarnessContext._normalize_package dev candidate with
  | some n => { c with candidate_packages := insertSet c.candidate_packages n }
  | none => c

/-- `HarnessContext.register_instrumentation_component`. -/
def HarnessContext.register_instrumentation_component (dev : Device)
    (c : HarnessContext) (component : List Char) : HarnessContext :=
  let component' := pyStrip component
  if component' = [] then c
  else
    let c :=
      { c with instrumentation_components :=
          insertSet c.instrumentation_components component' }
    let package := pyStrip (takeBeforeFirst '/' component')
    if package ≠ [] then HarnessContext.add_candidate_package dev c package
    else c

/-- Result of `process.wait(timeout=...)`: a timeout, or an exit status
(`none` models the defensive `return_code is None` branch). -/
inductive WaitOutcome where
  | timedOut
  | finished (code : Option Int)

/-- Oracles and inputs of one `run_instrumentation_once` call.
`fallback_package` is the value computed by `derive_fallback_package` from
the extras and component (modelled as an input since the claims do not
depend on the extras plumbing). -/
structure AttemptOracle where
  extraArgsOk : Bool
  dev1 : Device
  dev2 : Device
  skip_auto_install : Bool
  instrumentation_arg : List Char
  fallback_package : Option (List Char)
  targetInstalledOk : Bool
  launchOk : Bool
  startTimeout : Bool
  jloads : List Char → Option Json
  cat : List Char → List Char → Option (List Char)
  captureRaises : List Char → Bool
  lines : List (List Char)
  waitOutcome : WaitOutcome

/-- Outcome of one attempt: either an uncaught exception propagating out of
the streaming loop, or `(exit_code, ctx)`. -/
inductive RunOutcome where
  | crashed
  | result (code : Int) (ctx : HarnessContext)

/-- The guidance sequence shared by the terminal-failure paths of
`run_instrumentation_once` (missing-instrumentation, system-crash, phase
timeline). -/
def emitFailureGuidance (c : HarnessContext) : HarnessContext :=
  ((((c.maybe_emit_missing_instrumentation_guidance).1).maybe_emit_system_crash_guidance).1.maybe_emit_phase_guidance).1

/-- `run_instrumentation_once` at the outcome level: argument parsing,
resolution, target check, launch, the streaming loop, then the
exit-code/guidance logic.  Diagnostics collection has no session-state
effect and is omitted. -/
def run_instrumentation_once (o : AttemptOracle) : RunOutcome :=
  if o.extraArgsOk = false then
    .result 1 (HarnessContext.initial o.dev1 none)
  else
    match resolve_instrumentation_component o.dev1 o.dev2 o.skip_auto_install
        o.instrumentation_arg with
    | none => .result 1 (HarnessContext.initial o.dev1 o.fallback_package)
    | some component =>
      if o.targetInstalledOk = false then
        .result 1 (HarnessContext.initial o.dev1 o.fallback_package)
      else
        let ctx0 := HarnessContext.register_instrumentation_component o.dev1
          (HarnessContext.initial o.dev1 o.fallback_package) component
        if o.launchOk = false then .result 1 ctx0
        else if o.startTimeout then
          .result 1 (emitFailureGuidance ctx0)
        else
          let r := runLoop ⟨o.jloads, o.dev1, o.cat, o.captureRaises⟩ ctx0 o.lines
          let raised :=
            match r.2.getLast? with
            | some e => e.2.observeRaised || e.2.captureRaised
            | none => false
          if raised then .crashed
          else
            let ctx := r.1
            match o.waitOutcome with
            | .timedOut =>
              .result 1
                (((ctx.maybe_emit_system_crash_guidance).1.maybe_emit_phase_guidance).1)
            | .finished none => .result 1 (emitFailureGuidance ctx)
            | .finished (some code) =>
              if code ≠ 0 then .result code (emitFailureGuidance ctx)
              else if ctx.capture_completed = false then
                .result 1 (emitFailureGuidance ctx)
              else .result 0 ctx

/-- Events of one `main` run, for stating the retry-budget claims. -/
inductive MainEvent where
  | attempt (exit_code : Int) (missing crash : Bool)
  | installRetry
  | crashWait (ok : Bool)
  | crashRetry
  | crashAborted
  | crashedRun
deriving DecidableEq

/-- Whether a trace event is an install retry. -/
def isInstallRetry : MainEvent → Bool
  | .installRetry => true
  | _ => false

/-- Whether a trace event is a crash-triggered retry. -/
def isCrashRetry : MainEvent → Bool
  | .crashRetry => true
  | _ => false

/-- The retry loop of `main`, fuel-driven (each retry strictly shrinks the
remaining budget, so fuel `3` is always sufficient); returns the process
exit code and the event trace.  `auto_install_attempted` is set inside the
missing-instrumentation branch whether or not the install succeeds, i.e. it
becomes `autoAttempted || installTaken`. -/
def mainLoopFuel (attempts : Nat → AttemptOracle) (installOk : Nat → Bool)
    (waitAM : Nat → Bool) (skip_auto_install : Bool) :
    Nat → Nat → Bool → Nat → Int × List MainEvent
  | 0, _, _, _ => (1, [])
  | fuel + 1, i, autoAttempted, crashAttempts =>
    match run_instrumentation_once (attempts i) with
    | .crashed => (1, [.crashedRun])
    | .result exit_code ctx =>
      if exit_code = 0 then
        (0, [.attempt 0 ctx.missing_instrumentation_detected
              ctx.system_crash_detected])
      else
        let missing := ctx.missing_instrumentation_detected
        let crash := ctx.system_crash_detected
        let ev := MainEvent.attempt exit_code missing crash
        let installTaken := missing && !skip_auto_install && !autoAttempted
        if installTaken && installOk i then
          let r := mainLoopFuel attempts installOk waitAM skip_auto_install
            fuel (i + 1) true crashAttempts
          (r.1, ev :: .installRetry :: r.2)
        else
          if crash = true ∧ crashAttempts < 1 then
            if waitAM i then
              let r := mainLoopFuel attempts installOk waitAM skip_auto_install
                fuel (i + 1) (autoAttempted || installTaken) (crashAttempts + 1)
              (r.1, ev :: .crashWait true :: .crashRetry :: r.2)
            else (exit_code, [ev, .crashWait false, .crashAborted])
          else (exit_code, [ev])

/-- `main`: one run starts with no auto-install attempted (unless
`--skip-auto-install`) and zero crash retries. -/
def mainRun (attempts : Nat → AttemptOracle) (installOk : Nat → Bool)
    (waitAM : Nat → Bool) (skip_auto_install : Bool) : Int × List MainEvent :=
  mainLoopFuel attempts installOk waitAM skip_auto_install 3 0
    skip_auto_install 0

@[simp]
theorem isCrashRetry_attempt (e : Int) (m c : Bool) :
    isCrashRetry (.attempt e m c) = false := rfl

@[simp]
theorem isCrashRetry_installRetry : isCrashRetry .installRetry = false := rfl

@[simp]
theorem isCrashRetry_crashWait (b : Bool) :
    isCrashRetry (.crashWait b) = false := rfl

@[simp]
theorem isCrashRetry_crashRetry : isCrashRetry .crashRetry = true := rfl

@[simp]
theorem isCrashRetry_crashAborted : isCrashRetry .crashAborted = false := rfl

@[simp]
theorem isCrashRetry_crashedRun : isCrashRetry .crashedRun = false := rfl

@[simp]
theorem isInstallRetry_attempt (e : Int) (m c : Bool) :
    isInstallRetry (.attempt e m c) = false := rfl

@[simp]
theorem isInstallRetry_installRetry : isInstallRetry .installRetry = true := rfl

@[simp]
theorem isInstallRetry_crashWait (b : Bool) :
    isInstallRetry (.crashWait b) = false := rfl

@[simp]
theorem isInstallRetry_crashRetry : isInstallRetry .crashRetry = false := rfl

@[simp]
theorem isInstallRetry_crashAborted : isInstallRetry .crashAborted = false := rfl

@[simp]
theorem isInstallRetry_crashedRun : isInstallRetry .crashedRun = false := rfl

theorem mainLoopFuel_crash_budget (attempts : Nat → AttemptOracle)
    (installOk waitAM : Nat → Bool) (skip : Bool) :
    ∀ (fuel i : Nat) (autoAtt : Bool) (crashAtt : Nat),
      ((mainLoopFuel attempts installOk waitAM skip fuel i autoAtt
          crashAtt).2.countP isCrashRetry) ≤ 1 - crashAtt := by
  intro fuel
  induction fuel with
  | zero => intro i a ca; simp [mainLoopFuel]
  | succ fuel ih =>
    intro i autoAtt crashAtt
    unfold mainLoopFuel
    cases hro : run_instrumentation_once (attempts i) with
    | crashed => simp
    | result exit_code ctx =>
      dsimp only
      by_cases h0 : exit_code = 0
      · rw [if_pos h0]; simp
      · rw [if_neg h0]
        by_cases hI : (ctx.missing_instrumentation_detected && !skip &&
            !autoAtt && installOk i) = true
        · rw [if_pos hI]
          dsimp only
          have h := ih (i + 1) true crashAtt
          simp only [List.countP_cons, isCrashRetry_attempt,
            isCrashRetry_installRetry, Bool.false_eq_true, if_false,
            Nat.add_zero]
          omega
        · rw [if_neg (by simpa [Bool.and_assoc] using hI)]
          by_cases hcr : ctx.system_crash_detected = true ∧ crashAtt < 1
          · rw [if_pos hcr]
            by_cases hw : waitAM i = true
            · rw [if_pos hw]
              dsimp only
              have h := ih (i + 1)
                (autoAtt || (ctx.missing_instrumentation_detected && !skip &&
                  !autoAtt)) (crashAtt + 1)
              simp only [List.countP_cons, isCrashRetry_attempt,
                isCrashRetry_crashWait, isCrashRetry_crashRetry,
                Bool.false_eq_true, if_false, if_true, Nat.add_zero]
              omega
            · rw [if_neg (by simpa using hw)]
              simp
          · rw [if_neg hcr]
            simp

theorem mainLoopFuel_install_budget (attempts : Nat → AttemptOracle)
    (installOk waitAM : Nat → Bool) (skip : Bool) :
    ∀ (fuel i : Nat) (autoAtt : Bool) (crashAtt : Nat),
      ((mainLoopFuel attempts installOk waitAM skip fuel i autoAtt
          crashAtt).2.countP isInstallRetry) ≤
        (if autoAtt = true then 0 else 1) := by
  intro fuel
  induction fuel with
  | zero => intro i a ca; simp [mainLoopFuel]
  | succ fuel ih =>
    intro i autoAtt crashAtt
    unfold mainLoopFuel
    cases hro : run_instrumentation_once (attempts i) with
    | crashed =>
      dsimp only
      split_ifs <;> simp
    | result exit_code ctx =>
      dsimp only
      by_cases h0 : exit_code = 0
      · rw [if_pos h0]
        split_ifs <;> simp
      · rw [if_neg h0]
        by_cases hI : (ctx.missing_instrumentation_detected && !skip &&
            !autoAtt && installOk i) = true
        · rw [if_pos hI]
          dsimp only
          have hauto : autoAtt = false := by
            cases autoAtt
            · rfl
            · simp at hI
          subst hauto
          have h := ih (i + 1) true crashAtt
          simp only [List.countP_cons, isInstallRetry_attempt,
            isInstallRetry_installRetry, Bool.false_eq_true, if_false, if_true,
            Nat.add_zero, eq_self_iff_true] at h ⊢
          omega
        · rw [if_neg (by simpa [Bool.and_assoc] using hI)]
          by_cases hcr : ctx.system_crash_detected = true ∧ crashAtt < 1
          · rw [if_pos hcr]
            by_cases hw : waitAM i = true
            · rw [if_pos hw]
              dsimp only
              have h := ih (i + 1)
                (autoAtt || (ctx.missing_instrumentation_detected && !skip &&
                  !autoAtt)) (crashAtt + 1)
              have hb :
                  (if (autoAtt || (ctx.missing_instrumentation_detected &&
                      !skip && !autoAtt)) = true then (0 : Nat) else 1) ≤
                    (if autoAtt = true then 0 else 1) := by
                cases autoAtt <;> cases ctx.missing_instrumentation_detected <;>
                  cases skip <;> simp
              simp only [List.countP_cons, isInstallRetry_attempt,
                isInstallRetry_crashWait, isInstallRetry_crashRetry,
                Bool.false_eq_true, if_false, Nat.add_zero]
              omega
            · rw [if_neg (by simpa using hw)]
              simp
          · rw [if_neg hcr]
            simp

theorem mainLoopFuel_no_wait_no_crash_retry (attempts : Nat → AttemptOracle)
    (installOk waitAM : Nat → Bool) (skip : Bool)
    (hwAll : ∀ n, waitAM n = false) :
    ∀ (fuel i : Nat) (autoAtt : Bool) (crashAtt : Nat),
      ((mainLoopFuel attempts installOk waitAM skip fuel i autoAtt
          crashAtt).2.countP isCrashRetry) = 0 := by
  intro fuel
  induction fuel with
  | zero => intro i a ca; simp [mainLoopFuel]
  | succ fuel ih =>
    intro i autoAtt crashAtt
    unfold mainLoopFuel
    cases hro : run_instrumentation_once (attempts i) with
    | crashed => simp
    | result exit_code ctx =>
      dsimp only
      by_cases h0 : exit_code = 0
      · rw [if_pos h0]; simp
      · rw [if_neg h0]
        by_cases hI : (ctx.missing_instrumentation_detected && !skip &&
            !autoAtt && installOk i) = true
        · rw [if_pos hI]
          dsimp only
          have h := ih (i + 1) true crashAtt
          simp only [List.countP_cons, isCrashRetry_attempt,
            isCrashRetry_installRetry, Bool.false_eq_true, if_false,
            Nat.add_zero]
          omega
        · rw [if_neg (by simpa [Bool.and_assoc] using hI)]
          by_cases hcr : ctx.system_crash_detected = true ∧ crashAtt < 1
          · rw [if_pos hcr]
            rw [if_neg (by simp [hwAll i])]
            simp
          · rw [if_neg hcr]
            simp

theorem mainLoopFuel_abort_exit (attempts : Nat → AttemptOracle)
    (installOk waitAM : Nat → Bool) (skip : Bool) :
    ∀ (fuel i : Nat) (autoAtt : Bool) (crashAtt : Nat),
      MainEvent.crashAborted ∈
          (mainLoopFuel attempts installOk waitAM skip fuel i autoAtt
            crashAtt).2 →
        (mainLoopFuel attempts installOk waitAM skip fuel i autoAtt
          crashAtt).1 ≠ 0 := by
  intro fuel
  induction fuel with
  | zero => intro i a ca h; simp [mainLoopFuel] at h
  | succ fuel ih =>
    intro i autoAtt crashAtt hmem
    unfold mainLoopFuel at hmem ⊢
    cases hro : run_instrumentation_once (attempts i) with
    | crashed =>
      rw [hro] at hmem
      simp at hmem
    | result exit_code ctx =>
      rw [hro] at hmem
      dsimp only at hmem ⊢
      by_cases h0 : exit_code = 0
      · rw [if_pos h0] at hmem
        simp at hmem
      · rw [if_neg h0] at hmem ⊢
        by_cases hI : (ctx.missing_instrumentation_detected && !skip &&
            !autoAtt && installOk i) = true
        · rw [if_pos hI] at hmem ⊢
          dsimp only at hmem ⊢
          simp only [List.mem_cons] at hmem
          rcases hmem with h | h | h
          · exact absurd h (by simp)
          · exact absurd h (by simp)
          · exact ih (i + 1) _ _ h
        · rw [if_neg (by simpa [Bool.and_assoc] using hI)] at hmem ⊢
          by_cases hcr : ctx.system_crash_detected = true ∧ crashAtt < 1
          · rw [if_pos hcr] at hmem ⊢
            by_cases hw : waitAM i = true
            · rw [if_pos hw] at hmem ⊢
              dsimp only at hmem ⊢
              simp only [List.mem_cons] at hmem
              rcases hmem with h | h | h | h
              · exact absurd h (by simp)
              · exact absurd h (by simp)
              · exact absurd h (by simp)
              · exact ih (i + 1) _ _ h
            · rw [if_neg (by simpa using hw)] at hmem ⊢
              exact h0
          · rw [if_neg hcr] at hmem
            simp at hmem

/-! ### Concrete `main` runs for C9 and C4 -/

/-- An attempt whose resolution succeeds but whose stream announces a
missing-instrumentation line, ending with child exit status 1. -/
def c9AttemptMissing : AttemptOracle :=
  { extraArgsOk := true
    dev1 := c2Device
    dev2 := c2Device
    skip_auto_install := false
    instrumentation_arg := pyStr "pkg.a/Runner1"
    fallback_package := none
    targetInstalledOk := true
    launchOk := true
    startTimeout := false
    jloads := fun _ => none
    cat := fun _ _ => none
    captureRaises := fun _ => false
    lines := [pyStr "Unable to find instrumentation info for pkg.a"]
    waitOutcome := .finished (some 1) }

/-- An attempt whose stream announces a system-server crash, ending with
child exit status 1. -/
def c9AttemptCrash : AttemptOracle :=
  { c9AttemptMissing with
    lines := [pyStr "System has crashed"] }

/-- An attempt that resolves, streams the full §8 handshake, and exits 0
with the capture completed. -/
def c9AttemptSuccess : AttemptOracle :=
  { c9AttemptMissing with
    cat := fun _ _ => some (pyStr "\x7b\"documentId\":\"Doc 1\",\"pageIndex\":0\x7d")
    lines := demoLines
    waitOutcome := .finished (some 0) }

/-- Attempt `0` detects missing instrumentation, attempt `1` detects a
system crash, attempt `2` succeeds. -/
def c9Attempts (i : Nat) : AttemptOracle :=
  if i = 0 then c9AttemptMissing
  else if i = 1 then c9AttemptCrash
  else c9AttemptSuccess

/-- C9: across one `main` run, at most one system-crash retry and at most
one auto-install retry happen; if the activity manager never becomes
reachable there is no crash retry at all; a run that aborts after a crash
(`crashAborted` in the trace) exits non-zero; and on a run whose first
attempt reports missing instrumentation and whose second reports a system
crash, both budgets are spent independently in the same run — install
retry then crash retry — before the third attempt succeeds with exit 0. -/
theorem main_retry_budgets (attempts : Nat → AttemptOracle)
    (installOk waitAM : Nat → Bool) (skip : Bool) :
    ((mainRun attempts installOk waitAM skip).2.countP isCrashRetry ≤ 1) ∧
    ((mainRun attempts installOk waitAM skip).2.countP isInstallRetry ≤ 1) ∧
    ((∀ n, waitAM n = false) →
      (mainRun attempts installOk waitAM skip).2.countP isCrashRetry = 0) ∧
    (MainEvent.crashAborted ∈ (mainRun attempts installOk waitAM skip).2 →
      (mainRun attempts installOk waitAM skip).1 ≠ 0) ∧
    (mainRun c9Attempts (fun _ => true) (fun _ => true) false =
      (0, [.attempt 1 true false, .installRetry, .attempt 1 false true,
           .crashWait true, .crashRetry, .attempt 0 false false])) := by
  refine ⟨?_, ?_, ?_, ?_, ?_⟩
  · have h := mainLoopFuel_crash_budget attempts installOk waitAM skip 3 0 skip 0
    unfold mainRun
    omega
  · have h := mainLoopFuel_install_budget attempts installOk waitAM skip 3 0 skip 0
    have hb : (if skip = true then (0 : Nat) else 1) ≤ 1 := by
      cases skip <;> simp
    unfold mainRun
    exact le_trans h hb
  · intro hw
    exact mainLoopFuel_no_wait_no_crash_retry attempts installOk waitAM skip hw
      3 0 skip 0
  · exact mainLoopFuel_abort_exit attempts installOk waitAM skip 3 0 skip 0
  · decide

/-- Attempts that always crash-detect, against a device whose activity
manager never comes back. -/
def c9AbortAttempts (_ : Nat) : AttemptOracle := c9AttemptCrash

/-- Witness for C9: with an unrecoverable activity manager there is no
crash retry, and the aborting run exits non-zero. -/
theorem main_retry_budgets_witness :
    ((mainRun c9AbortAttempts (fun _ => true) (fun _ => false)
        false).2.countP isCrashRetry = 0) ∧
    (mainRun c9AbortAttempts (fun _ => true) (fun _ => false) false).1 ≠ 0 :=
  ⟨(main_retry_budgets c9AbortAttempts (fun _ => true) (fun _ => false)
      false).2.2.1 (fun _ => rfl),
   (main_retry_budgets c9AbortAttempts (fun _ => true) (fun _ => false)
      false).2.2.2.1 (by decide)⟩

/-! ### C4: no virtualization-unavailable skip path -/

/-- Environment of a runner with nested virtualization disabled. -/
def c4Env : Env :=
  { require_connected_device := none
    nested_virtualization_disabled := some (pyStr "true")
    acceleration_preference := none }

/-- An attempt on a device that reports no instrumentation at all, so no
component can be resolved. -/
def c4Attempt : AttemptOracle :=
  { extraArgsOk := true
    dev1 := demoDevice
    dev2 := demoDevice
    skip_auto_install := false
    instrumentation_arg := pyStr "com.example.test/Runner"
    fallback_package := none
    targetInstalledOk := true
    launchOk := true
    startTimeout := false
    jloads := fun _ => none
    cat := fun _ _ => none
    captureRaises := fun _ => false
    lines := []
    waitOutcome := .finished (some 1) }

/-- C4: the environment detector does classify this runner as lacking
virtualization, yet `main` still ends the run with exit code 1, not the
claimed skip with exit code 0 — no caller of `_virtualization_unavailable`
short-circuits the run, so the unresolvable-instrumentation failure is
reported as a failure. -/
theorem virtualization_skip_missing :
    _virtualization_unavailable c4Env = true ∧
    resolve_instrumentation_component demoDevice demoDevice false
      (pyStr "com.example.test/Runner") = none ∧
    (mainRun (fun _ => c4Attempt) (fun _ => false) (fun _ => false)
        false).1 = 1 := by
  refine ⟨by decide, by decide, by decide⟩

/-! ### C6: the phase timeline summary, grouping and key order -/

/-- The grouping key of an event. -/
def evKey (e : HarnessPhaseEvent) : PhaseKey :=
  (e.component, e.operation, e.attempt)

theorem strLt_cons_iff (x y : Char) (xs ys : List Char) :
    strLt (x :: xs) (y :: ys) = true ↔
      (x < y ∨ (x = y ∧ strLt xs ys = true)) := by
  show (if x < y then true else if x = y then strLt xs ys else false) = true ↔ _
  by_cases hxy : x < y
  · simp [hxy]
  · by_cases hxe : x = y
    · simp [hxy, hxe]
    · simp [hxy, hxe]

theorem strLt_trans : ∀ {a b c : List Char},
    strLt a b = true → strLt b c = true → strLt a c = true
  | [], [], _, h1, _ => by simp [strLt] at h1
  | [], _ :: _, [], _, h2 => by simp [strLt] at h2
  | [], _ :: _, _ :: _, _, _ => rfl
  | _ :: _, [], _, h1, _ => by simp [strLt] at h1
  | _ :: _, _ :: _, [], _, h2 => by simp [strLt] at h2
  | x :: xs, y :: ys, z :: zs, h1, h2 => by
    rw [strLt_cons_iff] at h1 h2 ⊢
    rcases h1 with h1 | ⟨rfl, h1⟩
    · rcases h2 with h2 | ⟨rfl, h2⟩
      · exact Or.inl (lt_trans h1 h2)
      · exact Or.inl h1
    · rcases h2 with h2 | ⟨rfl, h2⟩
      · exact Or.inl h2
      · exact Or.inr ⟨rfl, strLt_trans h1 h2⟩

theorem strLt_triple : ∀ (a b : List Char),
    strLt a b = true ∨ a = b ∨ strLt b a = true
  | [], [] => Or.inr (Or.inl rfl)
  | [], _ :: _ => Or.inl rfl
  | _ :: _, [] => Or.inr (Or.inr rfl)
  | x :: xs, y :: ys => by
    rcases lt_trichotomy x y with h | h | h
    · exact Or.inl ((strLt_cons_iff x y xs ys).mpr (Or.inl h))
    · subst h
      rcases strLt_triple xs ys with h | h | h
      · exact Or.inl ((strLt_cons_iff x x xs ys).mpr (Or.inr ⟨rfl, h⟩))
      · exact Or.inr (Or.inl (by rw [h]))
      · exact Or.inr (Or.inr ((strLt_cons_iff x x ys xs).mpr (Or.inr ⟨rfl, h⟩)))
    · exact Or.inr (Or.inr ((strLt_cons_iff y x ys xs).mpr (Or.inl h)))

theorem phaseKeyLe_iff (k1 k2 : PhaseKey) :
    phaseKeyLe k1 k2 = true ↔
      (strLt k1.1 k2.1 = true ∨ (k1.1 = k2.1 ∧
        (strLt k1.2.1 k2.2.1 = true ∨
          (k1.2.1 = k2.2.1 ∧ k1.2.2 ≤ k2.2.2)))) := by
  unfold phaseKeyLe
  simp [Bool.or_eq_true, Bool.and_eq_true, decide_eq_true_eq]

instance : IsTotal (PhaseKey × List HarnessPhaseEvent) entryRel := by
  constructor
  intro a b
  unfold entryRel
  rw [phaseKeyLe_iff, phaseKeyLe_iff]
  rcases strLt_triple a.1.1 b.1.1 with h | h | h
  · exact Or.inl (Or.inl h)
  · rcases strLt_triple a.1.2.1 b.1.2.1 with h2 | h2 | h2
    · exact Or.inl (Or.inr ⟨h, Or.inl h2⟩)
    · rcases le_total a.1.2.2 b.1.2.2 with h3 | h3
      · exact Or.inl (Or.inr ⟨h, Or.inr ⟨h2, h3⟩⟩)
      · exact Or.inr (Or.inr ⟨h.symm, Or.inr ⟨h2.symm, h3⟩⟩)
    · exact Or.inr (Or.inr ⟨h.symm, Or.inl h2⟩)
  · exact Or.inr (Or.inl h)

instance : IsTrans (PhaseKey × List HarnessPhaseEvent) entryRel := by
  constructor
  intro a b c hab hbc
  unfold entryRel at hab hbc ⊢
  rw [phaseKeyLe_iff] at hab hbc ⊢
  rcases hab with h1 | ⟨e1, r1⟩
  · rcases hbc with h2 | ⟨e2, r2⟩
    · exact Or.inl (strLt_trans h1 h2)
    · exact Or.inl (by rw [← e2]; exact h1)
  · rcases hbc with h2 | ⟨e2, r2⟩
    · exact Or.inl (by rw [e1]; exact h2)
    · refine Or.inr ⟨e1.trans e2, ?_⟩
      rcases r1 with h1 | ⟨f1, l1⟩
      · rcases r2 with h2 | ⟨f2, l2⟩
        · exact Or.inl (strLt_trans h1 h2)
        · exact Or.inl (by rw [← f2]; exact h1)
      · rcases r2 with h2 | ⟨f2, l2⟩
        · exact Or.inl (by rw [f1]; exact h2)
        · exact Or.inr ⟨f1.trans f2, le_trans l1 l2⟩

theorem groupAppend_keys (k : PhaseKey) (ev : HarnessPhaseEvent) :
    ∀ G : List (PhaseKey × List HarnessPhaseEvent),
      (groupAppend G k ev).map Prod.fst =
        if k ∈ G.map Prod.fst then G.map Prod.fst
        else G.map Prod.fst ++ [k]
  | [] => by simp [groupAppend]
  | (k', evs) :: rest => by
    by_cases hk : k' = k
    · subst hk
      simp [groupAppend]
    · have ih := groupAppend_keys k ev rest
      unfold groupAppend
      rw [if_neg hk, List.map_cons, List.map_cons, ih]
      by_cases hm : k ∈ rest.map Prod.fst
      · rw [if_pos hm, if_pos (List.mem_cons_of_mem _ hm)]
      · rw [if_neg hm, if_neg ?_, List.cons_append]
        intro hc
        rcases List.mem_cons.mp hc with h | h
        · exact hk h.symm
        · exact hm h

theorem groupAppend_mem (k : PhaseKey) (ev : HarnessPhaseEvent) :
    ∀ (G : List (PhaseKey × List HarnessPhaseEvent))
      (p : PhaseKey × List HarnessPhaseEvent),
      (G.map Prod.fst).Nodup → p ∈ groupAppend G k ev →
      (p.1 ≠ k ∧ p ∈ G) ∨
      (∃ evs, p = (k, evs ++ [ev]) ∧
        ((k, evs) ∈ G ∨ (evs = [] ∧ k ∉ G.map Prod.fst)))
  | [], p, _, hp => by
    refine Or.inr ⟨[], ?_, Or.inr ⟨rfl, by simp⟩⟩
    simpa [groupAppend] using hp
  | (k', evs') :: rest, p, hnd, hp => by
    by_cases hk : k' = k
    · subst hk
      unfold groupAppend at hp
      rw [if_pos rfl] at hp
      rcases List.mem_cons.mp hp with h | h
      · exact Or.inr ⟨evs', h, Or.inl (List.mem_cons_self _ _)⟩
      · refine Or.inl ⟨?_, List.mem_cons_of_mem _ h⟩
        intro hpk
        have : p.1 ∈ rest.map Prod.fst := List.mem_map_of_mem Prod.fst h
        rw [hpk] at this
        exact (List.nodup_cons.mp hnd).1 this
    · unfold groupAppend at hp
      rw [if_neg hk] at hp
      rcases List.mem_cons.mp hp with h | h
      · subst h
        exact Or.inl ⟨hk, List.mem_cons_self _ _⟩
      · rcases groupAppend_mem k ev rest p (List.nodup_cons.mp hnd).2 h with
          ⟨hne, hmem⟩ | ⟨evs, hpe, hrest⟩
        · exact Or.inl ⟨hne, List.mem_cons_of_mem _ hmem⟩
        · refine Or.inr ⟨evs, hpe, ?_⟩
          rcases hrest with hin | ⟨hnil, hnot⟩
          · exact Or.inl (List.mem_cons_of_mem _ hin)
          · refine Or.inr ⟨hnil, ?_⟩
            rw [List.map_cons]
            intro hc
            rcases List.mem_cons.mp hc with h2 | h2
            · exact hk h2.symm
            · exact hnot h2

/-- Invariant tying a group table to the events ingested so far: keys are
duplicate-free, a key is present exactly when an ingested event bears it,
and each group holds exactly the ingested events with its key, in order. -/
def goodGroups (done : List HarnessPhaseEvent)
    (G : List (PhaseKey × List HarnessPhaseEvent)) : Prop :=
  (G.map Prod.fst).Nodup ∧
  (∀ k, k ∈ G.map Prod.fst ↔ k ∈ done.map evKey) ∧
  (∀ p ∈ G, p.2 = done.filter (fun e => evKey e = p.1))

theorem goodGroups_append (done : List HarnessPhaseEvent)
    (G : List (PhaseKey × List HarnessPhaseEvent)) (ev : HarnessPhaseEvent)
    (h : goodGroups done G) :
    goodGroups (done ++ [ev]) (groupAppend G (evKey ev) ev) := by
  obtain ⟨hnd, hmem, hfil⟩ := h
  refine ⟨?_, ?_, ?_⟩
  · rw [groupAppend_keys]
    by_cases hm : evKey ev ∈ G.map Prod.fst
    · rw [if_pos hm]; exact hnd
    · rw [if_neg hm]
      rw [List.nodup_append]
      exact ⟨hnd, List.nodup_singleton _,
        fun a ha hb => hm (by rwa [List.mem_singleton.mp hb] at ha)⟩
  · intro k
    rw [groupAppend_keys, List.map_append, List.mem_append]
    by_cases hm : evKey ev ∈ G.map Prod.fst
    · rw [if_pos hm]
      constructor
      · intro h; exact Or.inl ((hmem k).mp h)
      · rintro (h | h)
        · exact (hmem k).mpr h
        · rw [show k = evKey ev by simpa using h]
          exact hm
    · rw [if_neg hm, List.mem_append]
      constructor
      · rintro (h | h)
        · exact Or.inl ((hmem k).mp h)
        · exact Or.inr (by simpa using h)
      · rintro (h | h)
        · exact Or.inl ((hmem k).mpr h)
        · exact Or.inr (by simpa using h)
  · intro p hp
    rcases groupAppend_mem (evKey ev) ev G p hnd hp with
      ⟨hne, hpG⟩ | ⟨evs, hpe, hrest⟩
    · rw [hfil p hpG, List.filter_append]
      have h1 : [ev].filter (fun e => evKey e = p.1) = [] := by
        simp [List.filter, Ne.symm hne]
      rw [h1, List.append_nil]
    · rcases hrest with hG | ⟨hnil, hnot⟩
      · have hevs := hfil (evKey ev, evs) hG
        rw [hpe]
        dsimp only at hevs ⊢
        rw [List.filter_append, ← hevs]
        have h2 : [ev].filter (fun e => evKey e = evKey ev) = [ev] := by
          simp [List.filter]
        rw [h2]
      · subst hnil
        rw [hpe]
        dsimp only
        rw [List.filter_append]
        have h1 : done.filter (fun e => evKey e = evKey ev) = [] := by
          rw [List.filter_eq_nil_iff]
          intro a ha hpa
          apply hnot
          apply (hmem (evKey ev)).mpr
          have hma : evKey a ∈ done.map evKey := List.mem_map_of_mem evKey ha
          rwa [show evKey a = evKey ev from by simpa using hpa] at hma
        have h2 : [ev].filter (fun e => evKey e = evKey ev) = [ev] := by
          simp [List.filter]
        rw [h1, h2, List.nil_append]

theorem foldl_handle_groups :
    ∀ (events done : List HarnessPhaseEvent) (c : HarnessContext),
      goodGroups done c.phase_attempt_events →
      goodGroups (done ++ events)
        ((events.foldl HarnessContext._handle_phase_event
          c).phase_attempt_events)
  | [], done, c, h => by simpa using h
  | ev :: rest, done, c, h => by
    rw [List.foldl_cons]
    have h2 := foldl_handle_groups rest (done ++ [ev])
      (HarnessContext._handle_phase_event c ev)
      (goodGroups_append done c.phase_attempt_events ev h)
    simpa [List.append_assoc] using h2

theorem foldl_handle_flag :
    ∀ (events : List HarnessPhaseEvent) (c : HarnessContext),
      ((events.foldl HarnessContext._handle_phase_event
        c).phase_guidance_emitted) = c.phase_guidance_emitted
  | [], _ => rfl
  | _ :: rest, c => foldl_handle_flag rest _

/-- C6 (amended): for any nonempty sequence of phase events ingested into a
fresh session, the timeline summary emits exactly one group per distinct
`(component, operation, attempt)` key — keys duplicate-free, ordered by the
sort key `(component, operation, attempt)` (not by first appearance) — and
each group summarizes precisely the ingested events bearing its key, in
ingestion order (so the reported context/checkpoint/detail/error fields are
the last-seen truthy ones of that attempt, and the next-attempt number is
reported only when the final event is a retry with a truthy
`next_attempt`). -/
theorem phase_timeline_grouping (events : List HarnessPhaseEvent)
    (hne : events ≠ []) :
    ∃ groups : List (PhaseKey × List HarnessPhaseEvent),
      (HarnessContext.maybe_emit_phase_guidance
          (events.foldl HarnessContext._handle_phase_event
            HarnessContext.empty)).2 =
        some (groups.map (fun e => summarizeGroup e.1 e.2)) ∧
      (groups.map Prod.fst).Nodup ∧
      groups.Sorted entryRel ∧
      (∀ k, k ∈ groups.map Prod.fst ↔ k ∈ events.map evKey) ∧
      (∀ p ∈ groups, p.2 = events.filter (fun e => evKey e = p.1)) := by
  have hgood := foldl_handle_groups events [] HarnessContext.empty
    (by refine ⟨List.nodup_nil, ?_, ?_⟩ <;> simp [HarnessContext.empty])
  rw [List.nil_append] at hgood
  obtain ⟨hnd, hmem, hfil⟩ := hgood
  have hperm := List.perm_insertionSort entryRel
    ((events.foldl HarnessContext._handle_phase_event
      HarnessContext.empty).phase_attempt_events)
  refine ⟨List.insertionSort entryRel
    ((events.foldl HarnessContext._handle_phase_event
      HarnessContext.empty).phase_attempt_events), ?_, ?_, ?_, ?_, ?_⟩
  · have hcond :
        ¬((events.foldl HarnessContext._handle_phase_event
            HarnessContext.empty).phase_guidance_emitted = true ∨
          (events.foldl HarnessContext._handle_phase_event
            HarnessContext.empty).phase_attempt_events.isEmpty = true) := by
      refine not_or.mpr ⟨?_, ?_⟩
      · rw [foldl_handle_flag]
        simp [HarnessContext.empty]
      · intro hE
        cases events with
        | nil => exact hne rfl
        | cons e0 rest0 =>
          have hm : evKey e0 ∈
              ((((e0 :: rest0)).foldl HarnessContext._handle_phase_event
                HarnessContext.empty).phase_attempt_events).map Prod.fst :=
            (hmem (evKey e0)).mpr (by simp)
          rw [List.isEmpty_iff.mp hE] at hm
          simp at hm
    unfold HarnessContext.maybe_emit_phase_guidance
    rw [if_neg hcond]
  · exact ((hperm.map Prod.fst).nodup_iff).mpr hnd
  · exact List.sorted_insertionSort entryRel _
  · intro k
    exact Iff.trans ((hperm.map Prod.fst).mem_iff) (hmem k)
  · intro p hp
    exact hfil p (hperm.mem_iff.mp hp)

/-- A minimal ingested event with the given component. -/
def c6EventStart (comp : List Char) : HarnessPhaseEvent :=
  { type := pyStr "start", component := comp, operation := pyStr "install"
    attempt := 1, timestamp_ms := none, context := [], checkpoint := none
    detail := none, next_attempt := none, error_type := none
    error_message := none }

/-- A retry event whose announced next attempt number is `0` (truthy in the
claim, falsy in Python). -/
def c6EventRetry : HarnessPhaseEvent :=
  { c6EventStart (pyStr "harness") with
    type := pyStr "retry", next_attempt := some 0 }

/-- C6 counterexample: ingesting keys first seen in the order `b`, `a`
prints the groups in sorted order `a`, `b`, not first-seen order; and a
group whose final event is a retry with `next_attempt = 0` reports no
next-attempt number, because the code additionally requires truthiness of
`next_attempt`. -/
theorem phase_timeline_not_first_seen_order :
    ((HarnessContext.maybe_emit_phase_guidance
        ([c6EventStart (pyStr "b"), c6EventStart (pyStr "a")].foldl
          HarnessContext._handle_phase_event HarnessContext.empty)).2.map
      (fun l => l.map (fun s => s.component))) = some [pyStr "a", pyStr "b"] ∧
    ([c6EventStart (pyStr "b"), c6EventStart (pyStr "a")].map
        (fun e => e.component)) = [pyStr "b", pyStr "a"] ∧
    ((HarnessContext.maybe_emit_phase_guidance
        ([c6EventRetry].foldl HarnessContext._handle_phase_event
          HarnessContext.empty)).2.map
      (fun l => l.map (fun s => s.next_attempt))) =
        some [(none : Option Int)] ∧
    c6EventRetry.type = pyStr "retry" ∧ c6EventRetry.next_attempt = some 0 := by
  decide

/-- Witness for C6 on the single-retry-event session. -/
theorem phase_timeline_grouping_witness :
    ∃ groups : List (PhaseKey × List HarnessPhaseEvent),
      (HarnessContext.maybe_emit_phase_guidance
          ([c6EventRetry].foldl HarnessContext._handle_phase_event
            HarnessContext.empty)).2 =
        some (groups.map (fun e => summarizeGroup e.1 e.2)) ∧
      (groups.map Prod.fst).Nodup ∧
      groups.Sorted entryRel ∧
      (∀ k, k ∈ groups.map Prod.fst ↔ k ∈ [c6EventRetry].map evKey) ∧
      (∀ p ∈ groups, p.2 = [c6EventRetry].filter (fun e => evKey e = p.1)) :=
  phase_timeline_grouping [c6EventRetry] (List.cons_ne_nil _ _)

end NovaPDF
